import Mathlib

/-!
Verification of the triage orchestration graph (`src/state.py`, `src/nodes.py`,
`src/graph.py`) against its natural-language specification.

Embedding conventions:
* Python dict-backed records become Lean structures whose fields are `Option`-valued:
  `none` models both an absent key and an explicit `None` value (the two are
  indistinguishable under the reducers `keep_last` and `merge_lists`).
* Python floats (the correlation confidence) are embedded as rationals `ℚ`;
  decimal literals such as `0.7` become `mkRat 7 10`.  All comparisons appearing
  in the code (`>= 0.7`, `< 0.4`) are order-preserving under this embedding.
* Python truthiness of an optional string (`if not ticket.get(f)`) is
  `none` or the empty string.
* A node of the graph is a function from the current state to the partial
  update dict it returns; the LangGraph driver applies the update through the
  per-field reducers declared in `state.py` (`keep_last` for scalar channels,
  `merge_lists` for `fetch_failures`).  `mergeState` below is that application.
-/

namespace Triage

/-- A single apostrophe character, used to build Python list reprs. -/
def sq : Char := Char.ofNat 39

/-- Python `str(list_of_str)`: elements quoted with apostrophes, comma-space
separated, in square brackets. -/
def pyStrListRepr (l : List String) : String :=
  "[" ++ String.intercalate ", " (l.map (fun s => String.mk [sq] ++ s ++ String.mk [sq])) ++ "]"

/-- An Intercom ticket as consumed by the graph (`state["ticket"]`): a dict
whose relevant keys are `id`, `subject`, `body`; each may be absent. -/
structure Ticket where
  id : Option String
  subject : Option String
  body : Option String
deriving DecidableEq

/-- Model of `correlation_result` as built by `analyze_correlation` in `src/nodes.py`
(the `matched_item` payload is kept opaque as an optional string; no claim
inspects its inner structure). -/
structure CorrelationResult where
  correlated : Bool
  confidence : ℚ
  correlation_type : String
  matched_item : Option String
  reason : String
deriving DecidableEq

/-- Model of `recurring_pattern` as built by `analyze_correlation` in `src/nodes.py`. -/
structure RecurringPattern where
  is_recurring : Bool
  related_tickets : List String
  pattern_summary : Option String
deriving DecidableEq

/-- Model of `recommendation` as built by `generate_recommendation` in `src/nodes.py`. -/
structure Recommendation where
  suggested_tags : List String
  correlation_summary : String
  next_action : String
  next_action_reason : String
  questions_for_customer : Option (List String)
  engineering_context : Option String
deriving DecidableEq

/-- Model of `TriageState` from `src/state.py`.  Every field is optional: `none` models
an absent key (or an explicit `None` value, which the reducers treat the same
way).  The three fetched-record lists are kept as lists of opaque identifiers;
their contents never influence control flow. -/
structure TriageState where
  ticket : Option Ticket
  issue_type : Option String
  target_repos : Option (List String)
  recent_prs : Option (List String)
  recent_linear_tickets : Option (List String)
  recent_intercom_tickets : Option (List String)
  fetch_failures : Option (List String)
  correlation_result : Option CorrelationResult
  recurring_pattern : Option RecurringPattern
  retry_count : Option Int
  days_back : Option Int
  reference_date : Option String
  recommendation : Option Recommendation
  verified : Option Bool
  error : Option String
deriving DecidableEq

/-- Reducer `keep_last` from `src/state.py`: `new if new is not None else current`. -/
def keep_last {α : Type} (current new : Option α) : Option α :=
  match new with
  | some v => some v
  | none => current

/-- Reducer `merge_lists` from `src/state.py`: treat `None` as `[]`, then append the
items of `new` that are not already present (membership tracked against the
accumulated list, exactly like the `seen` set in the source). -/
def merge_lists (current new : Option (List String)) : List String :=
  (new.getD []).foldl
    (fun merged item => if merged.contains item then merged else merged ++ [item])
    (current.getD [])

/-- The LangGraph driver applying one node update to the state: every scalar
channel of `TriageState` is reduced with `keep_last`, the `fetch_failures`
channel with `merge_lists` (the channel is only touched when the update carries
the key, i.e. is `some`). -/
def mergeState (s u : TriageState) : TriageState where
  ticket := keep_last s.ticket u.ticket
  issue_type := keep_last s.issue_type u.issue_type
  target_repos := keep_last s.target_repos u.target_repos
  recent_prs := keep_last s.recent_prs u.recent_prs
  recent_linear_tickets := keep_last s.recent_linear_tickets u.recent_linear_tickets
  recent_intercom_tickets := keep_last s.recent_intercom_tickets u.recent_intercom_tickets
  fetch_failures :=
    match u.fetch_failures with
    | none => s.fetch_failures
    | some l => some (merge_lists s.fetch_failures (some l))
  correlation_result := keep_last s.correlation_result u.correlation_result
  recurring_pattern := keep_last s.recurring_pattern u.recurring_pattern
  retry_count := keep_last s.retry_count u.retry_count
  days_back := keep_last s.days_back u.days_back
  reference_date := keep_last s.reference_date u.reference_date
  recommendation := keep_last s.recommendation u.recommendation
  verified := keep_last s.verified u.verified
  error := keep_last s.error u.error

/-- Python truthiness of an optional string: `None` and `""` are falsy. -/
def truthyStr (o : Option String) : Bool :=
  match o with
  | none => false
  | some s => !(s == "")

/-- The required-field check of `intake`:
`[f for f in ["subject", "body"] if not ticket.get(f)]`. -/
def requiredMissing (t : Ticket) : List String :=
  (if truthyStr t.subject then [] else ["subject"])
    ++ (if truthyStr t.body then [] else ["body"])

/-- Node `intake` from `src/nodes.py`: validates the ticket and either records an
error or initialises the lifecycle fields.  Returns the update dict
(`{**state, ...}`), to be applied through `mergeState`.  Note the success path
writes `"error": None`, which under `keep_last` leaves any current error in
place. -/
def intake (s : TriageState) : TriageState :=
  match s.ticket with
  | none => { s with error := some "No ticket provided" }
  | some t =>
    if requiredMissing t ≠ [] then
      { s with error := some ("Ticket missing required fields: " ++ pyStrListRepr (requiredMissing t)) }
    else
      { s with
        retry_count := some 0
        days_back := some 1
        fetch_failures := some []
        error := none }

/-- The `_get_repo_map` defaults from `src/nodes.py` (environment overrides are not
modelled; the graph is analysed at the default configuration). -/
def REPO_MAP (issue_type : String) : List String :=
  if issue_type = "frontend" then ["acme/web-frontend"]
  else if issue_type = "backend" then ["acme/api-backend"]
  else if issue_type = "infra" then ["acme/infrastructure"]
  else ["acme/web-frontend", "acme/api-backend"]

/-- The keys of `REPO_MAP`. -/
def repoMapKeys : List String := ["frontend", "backend", "infra", "unclear"]

/-- The fields of the parsed LLM response that `classify_issue_type` reads. -/
structure ClassifyOut where
  issue_type : Option String
deriving DecidableEq

/-- The state-writing tail of `classify_issue_type` from `src/nodes.py`, after
the model call and JSON parse have produced `result`: coerce unknown categories
to `"unclear"` and look up the target repositories. -/
def classify_issue_type (s : TriageState) (result : ClassifyOut) : TriageState :=
  let it0 := result.issue_type.getD "unclear"
  let it := if repoMapKeys.contains it0 then it0 else "unclear"
  { s with issue_type := some it, target_repos := some (REPO_MAP it) }

/-- An update dict carrying no keys (every channel absent). -/
def emptyUpdate : TriageState :=
  { ticket := none, issue_type := none, target_repos := none, recent_prs := none
    recent_linear_tickets := none, recent_intercom_tickets := none, fetch_failures := none
    correlation_result := none, recurring_pattern := none, retry_count := none
    days_back := none, reference_date := none, recommendation := none
    verified := none, error := none }

/-- Node `fetch_github` from `src/nodes.py`: the external fetch either returns a
record list or raises; a raise is absorbed into an empty list plus the source
identifier appended to the failure list (if not already present).  The node
returns the partial update `{"recent_prs": ..., "fetch_failures": ...}`. -/
def fetch_github (s : TriageState) (res : Except Unit (List String)) : TriageState :=
  let failures := s.fetch_failures.getD []
  match res with
  | .ok recent_prs =>
    { emptyUpdate with recent_prs := some recent_prs, fetch_failures := some failures }
  | .error _ =>
    { emptyUpdate with
      recent_prs := some []
      fetch_failures := some (if failures.contains "github" then failures else failures ++ ["github"]) }

/-- Node `fetch_linear` from `src/nodes.py`; same failure policy as `fetch_github`,
writing `recent_linear_tickets` and the identifier `"linear"`. -/
def fetch_linear (s : TriageState) (res : Except Unit (List String)) : TriageState :=
  let failures := s.fetch_failures.getD []
  match res with
  | .ok recent_linear =>
    { emptyUpdate with recent_linear_tickets := some recent_linear, fetch_failures := some failures }
  | .error _ =>
    { emptyUpdate with
      recent_linear_tickets := some []
      fetch_failures := some (if failures.contains "linear" then failures else failures ++ ["linear"]) }

/-- Node `fetch_intercom` from `src/nodes.py`; same failure policy, writing
`recent_intercom_tickets` and the identifier `"intercom"`. -/
def fetch_intercom (s : TriageState) (res : Except Unit (List String)) : TriageState :=
  let failures := s.fetch_failures.getD []
  match res with
  | .ok recent_intercom =>
    { emptyUpdate with recent_intercom_tickets := some recent_intercom, fetch_failures := some failures }
  | .error _ =>
    { emptyUpdate with
      recent_intercom_tickets := some []
      fetch_failures := some (if failures.contains "intercom" then failures else failures ++ ["intercom"]) }

/-- The fields of the parsed LLM response that `analyze_correlation` reads. -/
structure AnalyzeOut where
  correlated : Option Bool
  confidence : Option ℚ
  correlation_type : Option String
  matched_item : Option String
  reason : Option String
  is_recurring : Option Bool
  related_tickets : Option (List String)
  pattern_summary : Option String
deriving DecidableEq

/-- The state-writing tail of `analyze_correlation` from `src/nodes.py`:
populate `correlation_result` and `recurring_pattern` with the documented
defaults for absent keys. -/
def analyze_correlation (s : TriageState) (result : AnalyzeOut) : TriageState :=
  { s with
    correlation_result := some
      { correlated := result.correlated.getD false
        confidence := result.confidence.getD 0
        correlation_type := result.correlation_type.getD "none"
        matched_item := result.matched_item
        reason := result.reason.getD "" }
    recurring_pattern := some
      { is_recurring := result.is_recurring.getD false
        related_tickets := result.related_tickets.getD []
        pattern_summary := result.pattern_summary } }

/-- The three branch labels returned by `route_decision`. -/
inductive Branch
  | correlated
  | not_correlated
  | low_confidence
deriving DecidableEq

/-- Node `route_decision` from `src/nodes.py`: a pure function of the current state,
reading the correlation confidence (default `0.0`), the correlated flag
(default `False`), the recurring flag (default `False`) and the retry count
(default `0`). -/
def route_decision (s : TriageState) : Branch :=
  if (((s.correlation_result.map (fun r => r.correlated)).getD false) = true
        ∧ ((s.correlation_result.map (fun r => r.confidence)).getD 0 : ℚ) ≥ mkRat 7 10)
      ∨ ((s.recurring_pattern.map (fun r => r.is_recurring)).getD false) = true then
    .correlated
  else if ((s.correlation_result.map (fun r => r.confidence)).getD 0 : ℚ) < mkRat 4 10
      ∧ (s.retry_count.getD 0 : Int) < 2 then
    .low_confidence
  else
    .not_correlated

/-- Node `widen_window` from `src/nodes.py`: map `days_back` through
`{1: 3, 3: 7}.get(current_days, 7)` and increment `retry_count`; defaults `1`
and `0` for absent fields.  Returns the `{**state, ...}` update. -/
def widen_window (s : TriageState) : TriageState :=
  let retry_count := s.retry_count.getD 0
  let current_days := s.days_back.getD 1
  let new_days : Int := if current_days = 1 then 3 else if current_days = 3 then 7 else 7
  { s with retry_count := some (retry_count + 1), days_back := some new_days }

/-- The fields of the parsed LLM response that `generate_recommendation` reads. -/
structure RecommendOut where
  suggested_tags : Option (List String)
  correlation_summary : Option String
  next_action : Option String
  next_action_reason : Option String
  questions_for_customer : Option (List String)
  engineering_context : Option String
deriving DecidableEq

/-- The state-writing tail of `generate_recommendation` from `src/nodes.py`:
populate `recommendation`, defaulting `next_action` to `"reproduce"`. -/
def generate_recommendation (s : TriageState) (result : RecommendOut) : TriageState :=
  { s with
    recommendation := some
      { suggested_tags := result.suggested_tags.getD []
        correlation_summary := result.correlation_summary.getD ""
        next_action := result.next_action.getD "reproduce"
        next_action_reason := result.next_action_reason.getD ""
        questions_for_customer := result.questions_for_customer
        engineering_context := result.engineering_context } }

/-- The valid next actions checked by `verify`. -/
def valid_actions : List String := ["escalate", "get_more_info", "reproduce"]

/-- Node `verify` from `src/nodes.py`: (a) a truthy upstream error fails the run and
is preserved; (b) a falsy `next_action` (absent recommendation, or empty
string) fails with `"No next action generated"`; (c) an action outside
`valid_actions` fails with a descriptive error; (d) otherwise the run is
verified.  `fetch_failures` is only inspected for logging.  Returns the
`{**state, ...}` update. -/
def verify (s : TriageState) : TriageState :=
  if truthyStr s.error then { s with verified := some false }
  else
    let next_action := (s.recommendation.map (fun r => r.next_action)).getD ""
    if next_action = "" then
      { s with verified := some false, error := some "No next action generated" }
    else if !(valid_actions.contains next_action) then
      { s with verified := some false, error := some ("Invalid next action: " ++ next_action) }
    else
      { s with verified := some true }

/-! ### Claim C1: the routing decision -/

/-- A state carrying exactly the routing inputs (as `analyze_correlation` and
`widen_window` would have produced them). -/
def mkRouteState (confidence : ℚ) (correlated is_recurring : Bool) (retry_count : Int) : TriageState :=
  { emptyUpdate with
    correlation_result := some
      { correlated := correlated, confidence := confidence, correlation_type := "none"
        matched_item := none, reason := "" }
    recurring_pattern := some
      { is_recurring := is_recurring, related_tickets := [], pattern_summary := none }
    retry_count := some retry_count }

/-- The routing rule exactly as the specification words it: branch `correlated`
when (`correlated` and `confidence >= 0.7`) or `is_recurring`; else branch
`low_confidence` when `confidence < 0.4` and `retry_count < 2`; else branch
`not_correlated`. -/
def routeSpec (confidence : ℚ) (correlated is_recurring : Bool) (retry_count : Int) : Branch :=
  if (correlated = true ∧ confidence ≥ mkRat 7 10) ∨ is_recurring = true then .correlated
  else if confidence < mkRat 4 10 ∧ retry_count < 2 then .low_confidence
  else .not_correlated

/-- Concrete states exercising each rule of the verification gate. -/
def vgErrState : TriageState := { emptyUpdate with error := some "upstream failure" }

/-- A state with no recommendation and no recorded error. -/
def vgNoRecState : TriageState := emptyUpdate

/-- A recommendation with an invalid next action. -/
def vgBadRec : Recommendation :=
  { suggested_tags := [], correlation_summary := "", next_action := "dance"
    next_action_reason := "", questions_for_customer := none, engineering_context := none }

/-- A recommendation with a valid next action. -/
def vgGoodRec : Recommendation :=
  { suggested_tags := [], correlation_summary := "", next_action := "escalate"
    next_action_reason := "", questions_for_customer := none, engineering_context := none }

/-- A state holding the invalid recommendation. -/
def vgBadState : TriageState := { emptyUpdate with recommendation := some vgBadRec }

/-- A state holding the valid recommendation. -/
def vgGoodState : TriageState := { emptyUpdate with recommendation := some vgGoodRec }

/-! ### Claim C10: the intake failure path -/

/-- The initial state the caller hands to the graph (`src/main.py`,
`run_triage`): only the ticket and, optionally, a reference date. -/
def initialState (ticket : Option Ticket) (reference_date : Option String) : TriageState :=
  { emptyUpdate with ticket := ticket, reference_date := reference_date }

/-! ### The graph driver

`build_triage_graph` in `src/graph.py` wires the nodes:
`intake -> classify_issue_type -> {fetch_github, fetch_linear, fetch_intercom}
-> analyze_correlation -> route_decision -> {generate_recommendation -> verify
-> END | widen_window -> fetchers again}`.  The intake edge is unconditional:
there is no short circuit on an intake error.  The driver below executes that
wiring under the LangGraph semantics: each superstep reads a snapshot of the
state, node return values are applied through the channel reducers
(`mergeState`), the three fetchers run from the same snapshot and their
updates are joined before `analyze_correlation` runs, and an exception raised
inside a node propagates out of `invoke` to the caller.

External interactions are supplied as oracles: each fetcher call either
returns a record list or raises; each model call either raises (covering both
a model-call failure and a JSON parse failure of the response, which the
source code does not catch) or yields the parsed fields the node reads.
The driver also counts model calls, fetcher calls and widen-window
executions, so that claims about which work is executed can be stated. -/

/-- A failing model step: the LLM call raised, or `_parse_json_response`
raised on its output.  Neither is caught by any node. -/
inductive MErr
  | raised
  | badParse
deriving DecidableEq

/-- An exception escaping the workflow (`app.invoke` unwinds it). -/
inductive Exn
  | keyError (field : String)
  | model (e : MErr)
  | fuelExhausted
deriving DecidableEq

/-- Counters for the externally visible work a run performs. -/
structure Counts where
  modelCalls : Nat
  fetchCalls : Nat
  widenCalls : Nat
deriving DecidableEq

/-- The oracle bundle for one run: per-iteration fetcher outcomes and model
outcomes (the run makes at most one classification call, one correlation call
per loop iteration, and one recommendation call). -/
structure Oracles where
  classifyRes : Except MErr ClassifyOut
  githubRes : Nat → Except Unit (List String)
  linearRes : Nat → Except Unit (List String)
  intercomRes : Nat → Except Unit (List String)
  analyzeRes : Nat → Except MErr AnalyzeOut
  recommendRes : Except MErr RecommendOut

/-- The dictionary accesses `state["ticket"]`, `ticket["subject"]`,
`ticket["body"]` performed (in this order) by `classify_issue_type`,
`analyze_correlation` and `generate_recommendation` while building their
prompts: a missing key raises `KeyError`. -/
def requireTicketKeys (s : TriageState) : Except Exn Unit :=
  match s.ticket with
  | none => .error (.keyError "ticket")
  | some t =>
    match t.subject with
    | none => .error (.keyError "subject")
    | some _ =>
      match t.body with
      | none => .error (.keyError "body")
      | some _ => .ok ()

/-- The parallel fetch superstep: all three fetchers read the same snapshot
`s`; their partial updates are joined through the reducers ("fail
independently, join unconditionally"). -/
def runFetchJoin (s : TriageState) (o : Oracles) (iter : Nat) : TriageState :=
  mergeState
    (mergeState (mergeState s (fetch_github s (o.githubRes iter)))
      (fetch_linear s (o.linearRes iter)))
    (fetch_intercom s (o.intercomRes iter))

/-- The fetch/analyze/route loop of the graph.  `fuel` only bounds the
recursion depth of the embedding; the run itself is bounded by the
`retry_count < 2` guard in `route_decision` (proved below), so the
`fuelExhausted` outcome is never reached from the graph entry. -/
def loopRun (o : Oracles) : Nat → Nat → TriageState → Counts → Except Exn TriageState × Counts
  | 0, _, _, c => (.error .fuelExhausted, c)
  | Nat.succ fuel, iter, s, c =>
    let s1 := runFetchJoin s o iter
    let c1 : Counts := { c with fetchCalls := c.fetchCalls + 3 }
    match requireTicketKeys s1 with
    | .error e => (.error e, c1)
    | .ok _ =>
      let c2 : Counts := { c1 with modelCalls := c1.modelCalls + 1 }
      match o.analyzeRes iter with
      | .error e => (.error (.model e), c2)
      | .ok result =>
        let s2 := mergeState s1 (analyze_correlation s1 result)
        match route_decision s2 with
        | .low_confidence =>
          let s3 := mergeState s2 (widen_window s2)
          loopRun o fuel (iter + 1) s3 { c2 with widenCalls := c2.widenCalls + 1 }
        | _ =>
          match requireTicketKeys s2 with
          | .error e => (.error e, c2)
          | .ok _ =>
            let c3 : Counts := { c2 with modelCalls := c2.modelCalls + 1 }
            match o.recommendRes with
            | .error e => (.error (.model e), c3)
            | .ok result2 =>
              let s4 := mergeState s2 (generate_recommendation s2 result2)
              (.ok (mergeState s4 (verify s4)), c3)

/-- A full run of the compiled graph on the caller-supplied initial state
(`{"ticket": ..., "reference_date": ...}` as in `run_triage` of
`src/main.py`): intake, classification, then the fetch/analyze loop.  Returns
the final state or the unwound exception, together with the work counters. -/
def runTriage (ticket : Option Ticket) (reference_date : Option String) (o : Oracles) :
    Except Exn TriageState × Counts :=
  let s0 := initialState ticket reference_date
  let s1 := mergeState s0 (intake s0)
  match requireTicketKeys s1 with
  | .error e => (.error e, ⟨0, 0, 0⟩)
  | .ok _ =>
    match o.classifyRes with
    | .error e => (.error (.model e), ⟨1, 0, 0⟩)
    | .ok result =>
      let s2 := mergeState s1 (classify_issue_type s1 result)
      loopRun o 3 0 s2 ⟨1, 0, 0⟩

/-- A ticket whose body is present but empty. -/
def tEmptyBody : Ticket := { id := some "t-1", subject := some "Checkout broken", body := some "" }

instance {ε α : Type} [DecidableEq ε] [DecidableEq α] : DecidableEq (Except ε α) := fun x y =>
  match x, y with
  | .error e, .error f =>
    if h : e = f then .isTrue (by rw [h]) else .isFalse (fun hc => h (Except.error.inj hc))
  | .error _, .ok _ => .isFalse (fun hc => Except.noConfusion hc)
  | .ok _, .error _ => .isFalse (fun hc => Except.noConfusion hc)
  | .ok a, .ok b =>
    if h : a = b then .isTrue (by rw [h]) else .isFalse (fun hc => h (Except.ok.inj hc))

/-- The state of an `.ok` outcome (a placeholder otherwise). -/
def okStateD (r : Except Exn TriageState) : TriageState :=
  match r with
  | .ok s => s
  | .error _ => emptyUpdate

/-- Model-call totality: every model invocation of the run returns parseable
output (no constraint on the fetchers). -/
def oraclesTotal (o : Oracles) : Prop :=
  (∃ r, o.classifyRes = .ok r) ∧ (∀ i, ∃ r, o.analyzeRes i = .ok r) ∧ (∃ r, o.recommendRes = .ok r)

/-- A well-formed ticket. -/
def gsTicket : Ticket :=
  { id := some "ticket-001", subject := some "Checkout button broken", body := some "Cannot check out" }

/-- A ticket whose body key is absent. -/
def tNoBody : Ticket := { id := some "t-2", subject := some "Checkout broken", body := none }

/-- Oracles where every external interaction succeeds: classification says
frontend, correlation is confident, recommendation says escalate. -/
def benignOracles : Oracles :=
  { classifyRes := .ok { issue_type := some "frontend" }
    githubRes := fun _ => .ok []
    linearRes := fun _ => .ok []
    intercomRes := fun _ => .ok []
    analyzeRes := fun _ => .ok
      { correlated := some true, confidence := some (mkRat 9 10), correlation_type := some "github_pr"
        matched_item := none, reason := some "", is_recurring := some false
        related_tickets := some [], pattern_summary := none }
    recommendRes := .ok
      { suggested_tags := some [], correlation_summary := some ""
        next_action := some "escalate", next_action_reason := some ""
        questions_for_customer := none, engineering_context := none } }

/-- Oracles where every fetcher always raises while every model call
succeeds with an uncorrelated, low-confidence answer (driving the full retry
loop) and a valid recommendation. -/
def allFailOracles : Oracles :=
  { classifyRes := .ok { issue_type := some "frontend" }
    githubRes := fun _ => .error ()
    linearRes := fun _ => .error ()
    intercomRes := fun _ => .error ()
    analyzeRes := fun _ => .ok
      { correlated := some false, confidence := some 0, correlation_type := some "none"
        matched_item := none, reason := some "", is_recurring := some false
        related_tickets := some [], pattern_summary := none }
    recommendRes := .ok
      { suggested_tags := some [], correlation_summary := some ""
        next_action := some "escalate", next_action_reason := some ""
        questions_for_customer := none, engineering_context := none } }

/-- Oracles whose classification model call raises. -/
def failClassifyOracles : Oracles := { benignOracles with classifyRes := .error .raised }

/-! ### Claim C8: the structured-response parser

`_parse_json_response` in `src/nodes.py` is modelled character-exactly on
`List Char`:
1. if the text contains the fence marker (three backticks), extract the inner
   text of the first fenced block via
   `re.search(r"```(?:json)?\s*([\s\S]*?)\s*```", text)`;
2. locate the greedy `\{[\s\S]*\}` span (first `{` to last `}`), failing with
   `noObject` when absent;
3. strip trailing commas with `re.sub(r",(\s*[}\]])", r"\1", ...)` — a comma is
   dropped exactly when followed by optional whitespace and a closing brace or
   bracket, the whitespace and closer being kept (matches cannot overlap,
   because the matched span beyond its comma contains no comma, so the
   left-to-right non-overlapping substitution coincides with this per-comma
   rule);
4. re-quote unquoted string values via
   `re.sub(r'"(\w+)":\s+([A-Za-z][^"]+)",', '"\g1": "\g2",', ...)` — the
   pattern can only start at a quote, its whitespace run is normalised to a
   single space in the replacement, and matches cannot overlap;
5. parse with `json.loads` (strict JSON: objects with last-duplicate-wins
   keys, arrays, escaped strings rejecting raw control characters, numbers
   with fraction/exponent; the rarely used NaN/Infinity literals and
   surrogate-pair decoding are not modelled).
The regex character classes `\s` and `\w` are modelled at their ASCII
subsets, which the workloads of this repository exercise. -/

/-- The backtick character (the fence marker is three of these). -/
def tick : Char := Char.ofNat 96

/-- The regex `\s` class (ASCII subset): space, tab, newline, carriage
return, vertical tab, form feed. -/
def isReWs (c : Char) : Bool :=
  c == ' ' || c == '\t' || c == '\n' || c == '\r' || c == Char.ofNat 11 || c == Char.ofNat 12

/-- The regex `\w` class (ASCII subset): letters, digits, underscore. -/
def isWordChar (c : Char) : Bool := c.isAlphanum || c == '_'

/-- Does the list start with three backticks? -/
def isTicks3 (l : List Char) : Bool :=
  match l with
  | a :: b :: c :: _ => a == tick && b == tick && c == tick
  | _ => false

/-- Does the text contain the fence marker anywhere? (`"```" in text`). -/
def hasTicks : List Char → Bool
  | [] => false
  | a :: rest => isTicks3 (a :: rest) || hasTicks rest

/-- Split at the first fence marker: the text before it and the text after
its three backticks. -/
def ticksSplitPre : List Char → Option (List Char × List Char)
  | [] => none
  | c :: rest =>
    if isTicks3 (c :: rest) then some ([], rest.drop 2)
    else (ticksSplitPre rest).map (fun p => (c :: p.1, p.2))

/-- Remove the trailing `\s*` run. -/
def rtrimWs (l : List Char) : List Char := (l.reverse.dropWhile isReWs).reverse

/-- The regex `re.search(r"```(?:json)?\s*([\s\S]*?)\s*```", text)`, returning the
capture group: open at the first fence marker, optionally consume `json`,
greedily consume whitespace, then capture lazily up to (but excluding) the
whitespace run preceding the next fence marker.  `none` when no opening or no
closing marker exists (in which case the source keeps the text unchanged). -/
def searchFence (s : List Char) : Option (List Char) :=
  match ticksSplitPre s with
  | none => none
  | some (_, rest) =>
    let rest1 := if "json".toList.isPrefixOf rest then rest.drop 4 else rest
    let rest2 := rest1.dropWhile isReWs
    match ticksSplitPre rest2 with
    | none => none
    | some (body, _) => some (rtrimWs body)

/-- The regex `re.search(r"\{[\s\S]*\}", text)`: the span from the first `{` to the
last `}`, when the latter follows the former. -/
def braceSpan (s : List Char) : Option (List Char) :=
  match s.dropWhile (fun c => !(c == '{')) with
  | [] => none
  | t =>
    match (t.reverse.dropWhile (fun c => !(c == '}'))).reverse with
    | [] => none
    | r => some r

/-- Does the text start with `\s*` followed by a closing brace or bracket? -/
def closesWs : List Char → Bool
  | [] => false
  | c :: rest => if c == '}' || c == ']' then true else if isReWs c then closesWs rest else false

/-- Repair pass 1, `re.sub(r",(\s*[}\]])", r"\1", ...)`: drop each comma that
is followed by optional whitespace and a closing brace/bracket (see the
section comment for why this per-comma rule is the substitution). -/
def stripTrailingCommas : List Char → List Char
  | [] => []
  | c :: rest =>
    if c == ',' && closesWs rest then stripTrailingCommas rest
    else c :: stripTrailingCommas rest

/-- Try to match `\w+":\s+[A-Za-z][^"]+",` directly after a `"`: returns the
key, the unquoted value, and the number of characters the whole match spans
past the opening quote. -/
def requoteMatch (rest : List Char) : Option (List Char × List Char × Nat) :=
  let k := rest.takeWhile isWordChar
  if k.isEmpty then none
  else
    match rest.drop k.length with
    | '"' :: ':' :: r2 =>
      let ws := r2.takeWhile isReWs
      if ws.isEmpty then none
      else
        match r2.drop ws.length with
        | c :: r3 =>
          if c.isAlpha then
            let v := (c :: r3).takeWhile (fun ch => !(ch == '"'))
            if 2 ≤ v.length then
              match (c :: r3).drop v.length with
              | '"' :: ',' :: _ => some (k, v, k.length + 2 + ws.length + v.length + 2)
              | _ => none
            else none
          else none
        | [] => none
    | _ => none

/-- Repair pass 2 with a step-counting fuel (one unit per consumed character;
`requote` below supplies the input length, which suffices because every step
consumes at least one character).  On a match, emit
`"key": "value",` — normalising the whitespace run to one space and inserting
the missing opening quote — and continue after the match. -/
def requoteF : Nat → List Char → List Char
  | 0, l => l
  | _ + 1, [] => []
  | fuel + 1, c :: rest =>
    if c == '"' then
      match requoteMatch rest with
      | some (k, v, n) =>
        ('"' :: k ++ '"' :: ':' :: ' ' :: '"' :: v) ++ '"' :: ',' :: requoteF fuel (rest.drop n)
      | none => c :: requoteF fuel rest
    else c :: requoteF fuel rest

/-- Repair pass 2, `re.sub(r'"(\w+)":\s+([A-Za-z][^"]+)",', ...)`. -/
def requoteValues (l : List Char) : List Char := requoteF l.length l

/-- JSON whitespace. -/
def jskipWs (l : List Char) : List Char :=
  l.dropWhile (fun c => c == ' ' || c == '\t' || c == '\n' || c == '\r')

/-- A parsed JSON value (`json.loads` output). -/
inductive JValue
  | null
  | bool (b : Bool)
  | num (q : ℚ)
  | str (s : List Char)
  | arr (elems : List JValue)
  | obj (fields : List (List Char × JValue))

/-- Python dict insertion: replace in place when the key exists, else
append (duplicate keys: last value wins, original position kept). -/
def setKV (acc : List (List Char × JValue)) (k : List Char) (v : JValue) :
    List (List Char × JValue) :=
  if acc.any (fun p => p.1 == k) then acc.map (fun p => if p.1 == k then (k, v) else p)
  else acc ++ [(k, v)]

/-- Hexadecimal digit value. -/
def hexVal (c : Char) : Option Nat :=
  if c.isDigit then some (c.toNat - 48)
  else if 'a' ≤ c ∧ c ≤ 'f' then some (c.toNat - 87)
  else if 'A' ≤ c ∧ c ≤ 'F' then some (c.toNat - 55)
  else none

/-- A JSON string escape character. -/
def escChar (e : Char) : Option Char :=
  if e == '"' then some '"'
  else if e == '\\' then some '\\'
  else if e == '/' then some '/'
  else if e == 'b' then some (Char.ofNat 8)
  else if e == 'f' then some (Char.ofNat 12)
  else if e == 'n' then some '\n'
  else if e == 'r' then some '\r'
  else if e == 't' then some '\t'
  else none

/-- Parse a JSON string body (after the opening quote): contents and the rest
after the closing quote.  Raw control characters are rejected (strict mode). -/
def jstring : Nat → List Char → Option (List Char × List Char)
  | 0, _ => none
  | _ + 1, [] => none
  | fuel + 1, c :: rest =>
    if c == '"' then some ([], rest)
    else if c == '\\' then
      match rest with
      | [] => none
      | e :: rest2 =>
        if e == 'u' then
          match rest2 with
          | h1 :: h2 :: h3 :: h4 :: rest3 =>
            match hexVal h1, hexVal h2, hexVal h3, hexVal h4 with
            | some a, some b, some c2, some d =>
              (jstring fuel rest3).map
                (fun p => (Char.ofNat (a * 4096 + b * 256 + c2 * 16 + d) :: p.1, p.2))
            | _, _, _, _ => none
          | _ => none
        else
          match escChar e with
          | none => none
          | some ch => (jstring fuel rest2).map (fun p => (ch :: p.1, p.2))
    else if c.toNat < 32 then none
    else (jstring fuel rest).map (fun p => (c :: p.1, p.2))

/-- Digits of a decimal literal. -/
def digitsToNat (ds : List Char) : Nat := ds.foldl (fun acc c => acc * 10 + (c.toNat - 48)) 0

/-- Parse a JSON number: `-?(0|[1-9][0-9]*)(\.[0-9]+)?([eE][+-]?[0-9]+)?`,
consuming the longest valid prefix (as the Python NUMBER_RE regex does). -/
def jnumber (l : List Char) : Option (JValue × List Char) :=
  let p := match l with
    | '-' :: r => (true, r)
    | _ => (false, l)
  match p.2 with
  | [] => none
  | c :: _ =>
    if !c.isDigit then none
    else
      let ipAll := p.2.takeWhile Char.isDigit
      let ip := if c == '0' then ['0'] else ipAll
      let r1 := p.2.drop ip.length
      let fr := match r1 with
        | '.' :: rr =>
          let d := rr.takeWhile Char.isDigit
          if d.isEmpty then ([], r1) else (d, rr.drop d.length)
        | _ => ([], r1)
      let ex := match fr.2 with
        | e :: rr =>
          if e == 'e' || e == 'E' then
            let q := match rr with
              | '+' :: z => ((1 : Int), z)
              | '-' :: z => ((-1 : Int), z)
              | _ => ((1 : Int), rr)
            let d := q.2.takeWhile Char.isDigit
            if d.isEmpty then ((1 : Int), ([] : List Char), fr.2) else (q.1, d, q.2.drop d.length)
          else ((1 : Int), ([] : List Char), fr.2)
        | [] => ((1 : Int), ([] : List Char), fr.2)
      let mant : Int := (if p.1 then -1 else 1) * ((digitsToNat ip * 10 ^ fr.1.length + digitsToNat fr.1 : Nat) : Int)
      let expo : Int := ex.1 * (digitsToNat ex.2.1 : Int) - (fr.1.length : Int)
      let q : ℚ := if 0 ≤ expo then mkRat (mant * (10 ^ expo.toNat : Nat)) 1 else mkRat mant (10 ^ (-expo).toNat)
      some (.num q, ex.2.2)

mutual

/-- Parse a JSON value, skipping leading whitespace. -/
def jvalue : Nat → List Char → Option (JValue × List Char)
  | 0, _ => none
  | fuel + 1, l =>
    match jskipWs l with
    | [] => none
    | '{' :: rest => jobjBody fuel rest []
    | '[' :: rest => jarrBody fuel rest []
    | '"' :: rest => (jstring (rest.length + 1) rest).map (fun p => (JValue.str p.1, p.2))
    | 't' :: rest => if "rue".toList.isPrefixOf rest then some (.bool true, rest.drop 3) else none
    | 'f' :: rest => if "alse".toList.isPrefixOf rest then some (.bool false, rest.drop 4) else none
    | 'n' :: rest => if "ull".toList.isPrefixOf rest then some (.null, rest.drop 3) else none
    | c :: rest => jnumber (c :: rest)

/-- Parse the members of an object, entered right after `{` or after a `,`
(strict: a trailing comma is a parse error). -/
def jobjBody : Nat → List Char → List (List Char × JValue) → Option (JValue × List Char)
  | 0, _, _ => none
  | fuel + 1, l, acc =>
    match jskipWs l with
    | '}' :: rest => if acc.isEmpty then some (.obj acc, rest) else none
    | '"' :: rest =>
      match jstring (rest.length + 1) rest with
      | none => none
      | some (k, r1) =>
        match jskipWs r1 with
        | ':' :: r2 =>
          match jvalue fuel r2 with
          | none => none
          | some (v, r3) =>
            match jskipWs r3 with
            | ',' :: r4 => jobjBody fuel r4 (setKV acc k v)
            | '}' :: r4 => some (.obj (setKV acc k v), r4)
            | _ => none
        | _ => none
    | _ => none

/-- Parse the elements of an array, entered right after `[` or after a `,`. -/
def jarrBody : Nat → List Char → List JValue → Option (JValue × List Char)
  | 0, _, _ => none
  | fuel + 1, l, acc =>
    match jskipWs l with
    | ']' :: rest => if acc.isEmpty then some (.arr acc, rest) else none
    | l1 =>
      match jvalue fuel l1 with
      | none => none
      | some (v, r1) =>
        match jskipWs r1 with
        | ',' :: r2 => jarrBody fuel r2 (acc ++ [v])
        | ']' :: r2 => some (.arr (acc ++ [v]), r2)
        | _ => none

end

/-- Model of `json.loads`: parse one value and require only whitespace after it. -/
def jloads (l : List Char) : Except Unit JValue :=
  match jvalue (2 * l.length + 2) l with
  | none => .error ()
  | some (v, rest) => if (jskipWs rest).isEmpty then .ok v else .error ()

/-- The failure modes of `_parse_json_response`: no object found, or
`json.loads` raised. -/
inductive PErr
  | noObject
  | decodeError
deriving DecidableEq

/-- Function `_parse_json_response` from `src/nodes.py`. -/
def parse_json_response (text : List Char) : Except PErr JValue :=
  let t1 := if hasTicks text then
      match searchFence text with
      | some inner => inner
      | none => text
    else text
  match braceSpan t1 with
  | none => .error .noObject
  | some js =>
    match jloads (requoteValues (stripTrailingCommas js)) with
    | .ok v => .ok v
    | .error _ => .error .decodeError

/-- Wrap a text in a fenced `json` code block, as the claim describes. -/
def mkFenced (s : List Char) : List Char :=
  tick :: tick :: tick :: ("json".toList ++ ('\n' :: (s ++ ('\n' :: tick :: tick :: tick :: []))))

/-- Insert a trailing comma immediately before the closing brace. -/
def addComma (s : List Char) : List Char := s.dropLast ++ [',', '}']

/-- The last character before the final whitespace run. -/
def lastNonWs (l : List Char) : Option Char := (l.reverse.dropWhile isReWs).head?

/-- A well-formed JSON object text containing the fence marker inside a
string value: `{"a": "x```y"}`. -/
def cexJson : List Char :=
  '{' :: '"' :: 'a' :: '"' :: ':' :: ' ' :: '"' :: 'x' :: tick :: tick :: tick :: 'y' :: '"' :: '}' :: []

/-- A plain well-formed JSON object text for the witness: `{"a": "b"}`. -/
def wfJson : List Char :=
  '{' :: '"' :: 'a' :: '"' :: ':' :: ' ' :: '"' :: 'b' :: '"' :: '}' :: []

/-! ### Theorems -/

/-! ### Basic reducer lemmas -/

theorem keep_last_none {α : Type} (c : Option α) : keep_last c none = c := rfl

theorem keep_last_some {α : Type} (c : Option α) (v : α) : keep_last c (some v) = some v := rfl

theorem keep_last_self {α : Type} (c : Option α) : keep_last c c = c := by
  cases c <;> rfl

theorem merge_lists_nil_right (c : Option (List String)) :
    merge_lists c (some []) = c.getD [] := rfl

theorem merge_lists_self (l : List String) : merge_lists (some l) (some l) = l := by
  unfold merge_lists
  simp only [Option.getD_some]
  have : ∀ (b acc : List String), (∀ x ∈ b, x ∈ acc) →
      b.foldl (fun merged item => if merged.contains item then merged else merged ++ [item]) acc = acc := by
    intro b
    induction b with
    | nil => intro acc _; rfl
    | cons y ys ih =>
      intro acc h
      have hy : acc.contains y := by
        simpa using h y (by simp)
      simp only [List.foldl_cons, hy, if_pos]
      exact ih acc (fun x hx => h x (by simp [hx]))
  exact this l l (fun x hx => hx)

/-- Applying a `{**state, ...}` update that only changes a set of scalar
fields: every unchanged channel keeps its value (`keep_last c c = c`, and
`merge_lists l l = l` on the failure channel). -/
theorem mergeState_self (s : TriageState) : mergeState s s = s := by
  cases s with
  | mk ticket issue_type target_repos recent_prs rlt rit ff cr rp rc db rd rec v e =>
    simp only [mergeState, keep_last_self]
    cases ff with
    | none => rfl
    | some l => simp [merge_lists_self]

/-! ### Effect of single-node updates under the reducers -/

theorem merge_set_error (s : TriageState) (m : String) :
    mergeState s { s with error := some m } = { s with error := some m } := by
  cases s with
  | mk t it tr rp rlt rit ff cr rpat rc db rd rec v e =>
    simp only [mergeState, keep_last_self, keep_last_some]
    cases ff with
    | none => rfl
    | some l => simp [merge_lists_self]

theorem merge_set_verified (s : TriageState) (b : Bool) :
    mergeState s { s with verified := some b } = { s with verified := some b } := by
  cases s with
  | mk t it tr rp rlt rit ff cr rpat rc db rd rec v e =>
    simp only [mergeState, keep_last_self, keep_last_some]
    cases ff with
    | none => rfl
    | some l => simp [merge_lists_self]

theorem merge_set_verified_error (s : TriageState) (b : Bool) (m : String) :
    mergeState s { s with verified := some b, error := some m }
      = { s with verified := some b, error := some m } := by
  cases s with
  | mk t it tr rp rlt rit ff cr rpat rc db rd rec v e =>
    simp only [mergeState, keep_last_self, keep_last_some]
    cases ff with
    | none => rfl
    | some l => simp [merge_lists_self]

theorem merge_intake_init (s : TriageState) :
    mergeState s
        { s with
          retry_count := some 0
          days_back := some 1
          fetch_failures := some []
          error := none }
      = { s with
          retry_count := some 0
          days_back := some 1
          fetch_failures := some (s.fetch_failures.getD []) } := by
  cases s with
  | mk t it tr rp rlt rit ff cr rpat rc db rd rec v e =>
    simp only [mergeState, keep_last_self, keep_last_some, keep_last_none]
    cases ff <;> rfl

theorem merge_classify_update (s : TriageState) (a : String) (b : List String) :
    mergeState s { s with issue_type := some a, target_repos := some b }
      = { s with issue_type := some a, target_repos := some b } := by
  cases s with
  | mk t it tr rp rlt rit ff cr rpat rc db rd rec v e =>
    simp only [mergeState, keep_last_self, keep_last_some]
    cases ff with
    | none => rfl
    | some l => simp [merge_lists_self]

theorem merge_analyze_update (s : TriageState) (c : CorrelationResult) (r : RecurringPattern) :
    mergeState s { s with correlation_result := some c, recurring_pattern := some r }
      = { s with correlation_result := some c, recurring_pattern := some r } := by
  cases s with
  | mk t it tr rp rlt rit ff cr rpat rc db rd rec v e =>
    simp only [mergeState, keep_last_self, keep_last_some]
    cases ff with
    | none => rfl
    | some l => simp [merge_lists_self]

theorem merge_recommend_update (s : TriageState) (r : Recommendation) :
    mergeState s { s with recommendation := some r }
      = { s with recommendation := some r } := by
  cases s with
  | mk t it tr rp rlt rit ff cr rpat rc db rd rec v e =>
    simp only [mergeState, keep_last_self, keep_last_some]
    cases ff with
    | none => rfl
    | some l => simp [merge_lists_self]

/-- C1: `route_decision` is a function of exactly
(`correlation_result.confidence`, `correlation_result.correlated`,
`recurring_pattern.is_recurring`, `retry_count`) — with the source defaults for
absent fields — evaluated in the specified priority order, and the four
boundary cases behave as stated: confidence `0.7` with `correlated` gives
`correlated` (whatever the other inputs), `0.69999` with `correlated`, not
recurring, no retries gives `not_correlated`, `0.39` with one retry gives
`low_confidence`, and `0.39` with two retries gives `not_correlated`. -/
theorem route_decision_functional_spec :
    (∀ s : TriageState,
      route_decision s =
        routeSpec ((s.correlation_result.map (fun r => r.confidence)).getD 0)
          ((s.correlation_result.map (fun r => r.correlated)).getD false)
          ((s.recurring_pattern.map (fun r => r.is_recurring)).getD false)
          (s.retry_count.getD 0))
    ∧ (∀ (isRec : Bool) (retry : Int), route_decision (mkRouteState (mkRat 7 10) true isRec retry) = .correlated)
    ∧ route_decision (mkRouteState (mkRat 69999 100000) true false 0) = .not_correlated
    ∧ route_decision (mkRouteState (mkRat 39 100) false false 1) = .low_confidence
    ∧ route_decision (mkRouteState (mkRat 39 100) false false 2) = .not_correlated := by
  refine ⟨fun s => rfl, fun isRec retry => ?_, by decide, by decide, by decide⟩
  simp [route_decision, mkRouteState]

/-! ### Claim C4: the widen-window step -/

/-- C4: applying the `widen_window` node update maps `days_back` through the
saturating table `{1 -> 3, 3 -> 7, other -> 7}` (default current value `1`),
increments `retry_count` by exactly one (default `0`), and changes no other
field of the state. -/
theorem widen_window_table_and_frame :
    ∀ s : TriageState,
      mergeState s (widen_window s) =
        { s with
          days_back := some (if s.days_back.getD 1 = 1 then 3 else if s.days_back.getD 1 = 3 then 7 else 7)
          retry_count := some (s.retry_count.getD 0 + 1) } := by
  intro s
  cases s with
  | mk ticket issue_type target_repos recent_prs rlt rit ff cr rp rc db rd rec v e =>
    simp only [widen_window, mergeState, keep_last_self, keep_last_some]
    cases ff with
    | none => rfl
    | some l => simp [merge_lists_self]

/-! ### Claim C9: scalar-field merge semantics -/

/-- C9: every scalar channel of the state (ticket, issue_type, target_repos,
correlation_result, recurring_pattern, recommendation, retry_count, days_back,
reference_date, verified, error) is merged with `keep_last`, and `keep_last`
is last-writer-wins with the guarantee that an absent/`None` new value never
overwrites the current value. -/
theorem scalar_merge_last_writer_wins :
    (∀ (α : Type) (c : Option α), keep_last c none = c)
    ∧ (∀ (α : Type) (c : Option α) (v : α), keep_last c (some v) = some v)
    ∧ (∀ s u : TriageState,
        (mergeState s u).ticket = keep_last s.ticket u.ticket
        ∧ (mergeState s u).issue_type = keep_last s.issue_type u.issue_type
        ∧ (mergeState s u).target_repos = keep_last s.target_repos u.target_repos
        ∧ (mergeState s u).correlation_result = keep_last s.correlation_result u.correlation_result
        ∧ (mergeState s u).recurring_pattern = keep_last s.recurring_pattern u.recurring_pattern
        ∧ (mergeState s u).recommendation = keep_last s.recommendation u.recommendation
        ∧ (mergeState s u).retry_count = keep_last s.retry_count u.retry_count
        ∧ (mergeState s u).days_back = keep_last s.days_back u.days_back
        ∧ (mergeState s u).reference_date = keep_last s.reference_date u.reference_date
        ∧ (mergeState s u).verified = keep_last s.verified u.verified
        ∧ (mergeState s u).error = keep_last s.error u.error) :=
  ⟨fun _ _ => rfl, fun _ _ _ => rfl,
   fun _ _ => ⟨rfl, rfl, rfl, rfl, rfl, rfl, rfl, rfl, rfl, rfl, rfl⟩⟩

/-! ### Claim C7: the verification gate -/

/-- C7: applying the `verify` node update obeys the four transition rules in
order — (a) a recorded upstream error gives `verified = false` with the error
preserved and nothing else changed; (b) otherwise a falsy `next_action` gives
`verified = false` with error `"No next action generated"`; (c) otherwise an
action outside the three valid ones gives `verified = false` with a descriptive
error; (d) otherwise `verified = true` — and the verification outcome never
depends on `fetch_failures`. -/
theorem verify_gate_rules :
    (∀ s : TriageState, truthyStr s.error = true →
        mergeState s (verify s) = { s with verified := some false })
    ∧ (∀ s : TriageState, truthyStr s.error = false →
        ((s.recommendation.map (fun r => r.next_action)).getD "") = "" →
        mergeState s (verify s)
          = { s with verified := some false, error := some "No next action generated" })
    ∧ (∀ (s : TriageState) (r : Recommendation), truthyStr s.error = false →
        s.recommendation = some r → r.next_action ≠ "" →
        valid_actions.contains r.next_action = false →
        mergeState s (verify s)
          = { s with verified := some false, error := some ("Invalid next action: " ++ r.next_action) })
    ∧ (∀ (s : TriageState) (r : Recommendation), truthyStr s.error = false →
        s.recommendation = some r → valid_actions.contains r.next_action = true →
        mergeState s (verify s) = { s with verified := some true })
    ∧ (∀ (s : TriageState) (l : Option (List String)),
        (verify { s with fetch_failures := l }).verified = (verify s).verified
        ∧ (verify { s with fetch_failures := l }).error = (verify s).error) := by
  refine ⟨?_, ?_, ?_, ?_, ?_⟩
  · intro s h
    rw [verify, if_pos (by simp [h])]
    exact merge_set_verified s false
  · intro s h hna
    rw [verify, if_neg (by simp [h])]
    simp only [hna, if_pos]
    exact merge_set_verified_error s false "No next action generated"
  · intro s r h hr hne hinv
    have hna : ((s.recommendation.map (fun x => x.next_action)).getD "") = r.next_action := by
      rw [hr]; rfl
    rw [verify, if_neg (by simp [h]), if_neg (by rw [hna]; exact hne)]
    rw [if_pos (by rw [hna, hinv]; rfl)]
    rw [hna]
    exact merge_set_verified_error s false ("Invalid next action: " ++ r.next_action)
  · intro s r h hr hval
    have hne : r.next_action ≠ "" := by
      intro hcon
      rw [hcon] at hval
      simp [valid_actions] at hval
    have hna : ((s.recommendation.map (fun x => x.next_action)).getD "") = r.next_action := by
      rw [hr]; rfl
    rw [verify, if_neg (by simp [h]), if_neg (by rw [hna]; exact hne),
      if_neg (by rw [hna, hval]; simp)]
    exact merge_set_verified s true
  · intro s l
    by_cases h : truthyStr s.error = true
    · simp [verify, h]
    · have h' : truthyStr s.error = false := by
        cases hb : truthyStr s.error
        · rfl
        · exact absurd hb h
      by_cases hna : ((s.recommendation.map (fun r => r.next_action)).getD "") = ""
      · simp [verify, h', hna]
      · by_cases hv : ((s.recommendation.map (fun r => r.next_action)).getD "") ∈ valid_actions
        · simp [verify, h', hna, hv]
        · simp [verify, h', hna, hv]

/-- Witness for C7: each rule of the gate, instantiated at a concrete state. -/
theorem verify_gate_rules_witness :
    mergeState vgErrState (verify vgErrState) = { vgErrState with verified := some false }
    ∧ mergeState vgNoRecState (verify vgNoRecState)
        = { vgNoRecState with verified := some false, error := some "No next action generated" }
    ∧ mergeState vgBadState (verify vgBadState)
        = { vgBadState with verified := some false, error := some ("Invalid next action: " ++ "dance") }
    ∧ mergeState vgGoodState (verify vgGoodState) = { vgGoodState with verified := some true }
    ∧ ((verify { vgGoodState with fetch_failures := some ["github"] }).verified
        = (verify vgGoodState).verified
      ∧ (verify { vgGoodState with fetch_failures := some ["github"] }).error
        = (verify vgGoodState).error) :=
  ⟨verify_gate_rules.1 vgErrState (by decide),
   verify_gate_rules.2.1 vgNoRecState (by decide) (by decide),
   verify_gate_rules.2.2.1 vgBadState vgBadRec (by decide) rfl (by decide) (by decide),
   verify_gate_rules.2.2.2.1 vgGoodState vgGoodRec (by decide) rfl (by decide),
   verify_gate_rules.2.2.2.2 vgGoodState (some ["github"])⟩

/-- C10: when intake rejects the ticket (ticket absent, or a required field
missing or empty) the applied update changes only `error`, leaving every other
field exactly as before; in particular, starting from the caller-supplied
initial state, `retry_count`, `days_back` and `fetch_failures` remain absent
after a failed intake. -/
theorem intake_failure_frame :
    (∀ s : TriageState, s.ticket = none →
        mergeState s (intake s) = { s with error := some "No ticket provided" })
    ∧ (∀ (s : TriageState) (t : Ticket), s.ticket = some t → requiredMissing t ≠ [] →
        mergeState s (intake s)
          = { s with error := some ("Ticket missing required fields: " ++ pyStrListRepr (requiredMissing t)) })
    ∧ (∀ (t : Ticket) (rd : Option String), requiredMissing t ≠ [] →
        (mergeState (initialState (some t) rd) (intake (initialState (some t) rd))).retry_count = none
        ∧ (mergeState (initialState (some t) rd) (intake (initialState (some t) rd))).days_back = none
        ∧ (mergeState (initialState (some t) rd) (intake (initialState (some t) rd))).fetch_failures = none) := by
  have h1 : ∀ s : TriageState, s.ticket = none →
      mergeState s (intake s) = { s with error := some "No ticket provided" } := by
    intro s h
    have : intake s = { s with error := some "No ticket provided" } := by
      rw [intake, h]
    rw [this]
    exact merge_set_error s "No ticket provided"
  have h2 : ∀ (s : TriageState) (t : Ticket), s.ticket = some t → requiredMissing t ≠ [] →
      mergeState s (intake s)
        = { s with error := some ("Ticket missing required fields: " ++ pyStrListRepr (requiredMissing t)) } := by
    intro s t h hm
    have : intake s
        = { s with error := some ("Ticket missing required fields: " ++ pyStrListRepr (requiredMissing t)) } := by
      rw [intake, h]
      exact if_pos hm
    rw [this]
    exact merge_set_error s _
  refine ⟨h1, h2, ?_⟩
  intro t rd hm
  rw [h2 (initialState (some t) rd) t rfl hm]
  exact ⟨rfl, rfl, rfl⟩

/-- Witness for C10: a concrete failed intake changes only `error` and leaves
the lifecycle fields absent. -/
theorem intake_failure_frame_witness :
    mergeState (initialState none none) (intake (initialState none none))
      = { initialState none none with error := some "No ticket provided" }
    ∧ mergeState (initialState (some tEmptyBody) none) (intake (initialState (some tEmptyBody) none))
      = { initialState (some tEmptyBody) none with
          error := some ("Ticket missing required fields: " ++ pyStrListRepr (requiredMissing tEmptyBody)) }
    ∧ (mergeState (initialState (some tEmptyBody) none) (intake (initialState (some tEmptyBody) none))).retry_count = none :=
  ⟨intake_failure_frame.1 (initialState none none) rfl,
   intake_failure_frame.2.1 (initialState (some tEmptyBody) none) tEmptyBody rfl (by decide),
   (intake_failure_frame.2.2 tEmptyBody none (by decide)).1⟩

/-! ### Helper lemmas about the driver -/

theorem merge_widen_update (s : TriageState) :
    mergeState s (widen_window s)
      = { s with
          days_back := some (if s.days_back.getD 1 = 1 then 3 else if s.days_back.getD 1 = 3 then 7 else 7)
          retry_count := some (s.retry_count.getD 0 + 1) } := by
  cases s with
  | mk ticket issue_type target_repos recent_prs rlt rit ff cr rp rc db rd rec v e =>
    simp only [widen_window, mergeState, keep_last_self, keep_last_some]
    cases ff with
    | none => rfl
    | some l => simp [merge_lists_self]

theorem mergeState_ff_pass (s u : TriageState) (h : u.fetch_failures = s.fetch_failures) :
    (mergeState s u).fetch_failures = s.fetch_failures := by
  show (match u.fetch_failures with
    | none => s.fetch_failures
    | some l => some (merge_lists s.fetch_failures (some l))) = s.fetch_failures
  rw [h]
  cases hff : s.fetch_failures with
  | none => rfl
  | some l => simp [merge_lists_self]

theorem verify_ff (s : TriageState) : (verify s).fetch_failures = s.fetch_failures := by
  by_cases h : truthyStr s.error = true
  · simp [verify, h]
  · have h' : truthyStr s.error = false := by
      cases hb : truthyStr s.error
      · rfl
      · exact absurd hb h
    by_cases hna : ((s.recommendation.map (fun r => r.next_action)).getD "") = ""
    · simp [verify, h', hna]
    · by_cases hv : ((s.recommendation.map (fun r => r.next_action)).getD "") ∈ valid_actions
      · simp [verify, h', hna, hv]
      · simp [verify, h', hna, hv]

theorem verify_truthy (s : TriageState) (h : truthyStr s.error = true) :
    mergeState s (verify s) = { s with verified := some false } := by
  rw [verify, if_pos (by simp [h])]
  exact merge_set_verified s false

/-- Whatever state reaches the gate, the applied gate update always leaves a
populated status: `verified = some true`, or `verified = some false` with an
error recorded. -/
theorem verify_status (s : TriageState) :
    (mergeState s (verify s)).verified = some true
    ∨ ((mergeState s (verify s)).verified = some false
        ∧ ∃ m, (mergeState s (verify s)).error = some m) := by
  by_cases h : truthyStr s.error = true
  · right
    rw [verify_truthy s h]
    refine ⟨rfl, ?_⟩
    cases he : s.error with
    | none => rw [he] at h; exact absurd h (by simp [truthyStr])
    | some m => exact ⟨m, by simp [he]⟩
  · have h' : truthyStr s.error = false := by
      cases hb : truthyStr s.error
      · rfl
      · exact absurd hb h
    by_cases hna : ((s.recommendation.map (fun r => r.next_action)).getD "") = ""
    · right
      rw [verify, if_neg (by simp [h']), if_pos hna]
      rw [merge_set_verified_error]
      exact ⟨rfl, "No next action generated", rfl⟩
    · by_cases hv : ((s.recommendation.map (fun r => r.next_action)).getD "") ∈ valid_actions
      · left
        rw [verify, if_neg (by simp [h']), if_neg hna, if_neg (by simp [hv])]
        rw [merge_set_verified]
      · right
        rw [verify, if_neg (by simp [h']), if_neg hna, if_pos (by simp [hv])]
        rw [merge_set_verified_error]
        exact ⟨rfl, _, rfl⟩

theorem requireTicketKeys_congr (s u : TriageState) (h : u.ticket = s.ticket) :
    requireTicketKeys u = requireTicketKeys s := by
  unfold requireTicketKeys
  rw [h]

/-- The fetch superstep does not touch the ticket, the retry counter, the
days window, the error, the recommendation or the correlation fields. -/
theorem fetchJoin_frame (s : TriageState) (o : Oracles) (iter : Nat) :
    (runFetchJoin s o iter).ticket = s.ticket
    ∧ (runFetchJoin s o iter).retry_count = s.retry_count
    ∧ (runFetchJoin s o iter).days_back = s.days_back
    ∧ (runFetchJoin s o iter).error = s.error
    ∧ (runFetchJoin s o iter).recommendation = s.recommendation
    ∧ (runFetchJoin s o iter).correlation_result = s.correlation_result
    ∧ (runFetchJoin s o iter).recurring_pattern = s.recurring_pattern := by
  unfold runFetchJoin fetch_github fetch_linear fetch_intercom
  cases o.githubRes iter <;> cases o.linearRes iter <;> cases o.intercomRes iter <;>
    exact ⟨rfl, rfl, rfl, rfl, rfl, rfl, rfl⟩

theorem route_low_retry (s : TriageState) (h : route_decision s = .low_confidence) :
    (s.retry_count.getD 0 : Int) < 2 := by
  by_cases h1 : (((s.correlation_result.map (fun r => r.correlated)).getD false) = true
        ∧ ((s.correlation_result.map (fun r => r.confidence)).getD 0 : ℚ) ≥ mkRat 7 10)
      ∨ ((s.recurring_pattern.map (fun r => r.is_recurring)).getD false) = true
  · rw [route_decision, if_pos h1] at h
    exact absurd h (by simp)
  · by_cases h2 : ((s.correlation_result.map (fun r => r.confidence)).getD 0 : ℚ) < mkRat 4 10
        ∧ (s.retry_count.getD 0 : Int) < 2
    · exact h2.2
    · rw [route_decision, if_neg h1, if_neg h2] at h
      exact absurd h (by simp)

theorem merge_lists_nodup (c n : Option (List String)) (h : (c.getD []).Nodup) :
    (merge_lists c n).Nodup := by
  unfold merge_lists
  have key : ∀ (b acc : List String), acc.Nodup →
      (b.foldl (fun merged item => if merged.contains item then merged else merged ++ [item]) acc).Nodup := by
    intro b
    induction b with
    | nil => intro acc ha; exact ha
    | cons x xs ih =>
      intro acc ha
      simp only [List.foldl_cons]
      by_cases hx : acc.contains x
      · rw [if_pos hx]; exact ih acc ha
      · rw [if_neg hx]
        refine ih (acc ++ [x]) ?_
        have hxne : x ∉ acc := by simpa using hx
        simp [List.nodup_append, ha, hxne]
  exact key (n.getD []) (c.getD []) h

theorem fetchJoin_nodup (s : TriageState) (o : Oracles) (iter : Nat)
    (h : (s.fetch_failures.getD []).Nodup) :
    ((runFetchJoin s o iter).fetch_failures.getD []).Nodup := by
  unfold runFetchJoin fetch_github fetch_linear fetch_intercom
  cases o.githubRes iter <;> cases o.linearRes iter <;> cases o.intercomRes iter <;>
    · simp only [mergeState]
      exact merge_lists_nodup _ _ (merge_lists_nodup _ _ (merge_lists_nodup _ _ h))

theorem analyze_step_frame (s : TriageState) (r : AnalyzeOut) :
    (mergeState s (analyze_correlation s r)).ticket = s.ticket
    ∧ (mergeState s (analyze_correlation s r)).retry_count = s.retry_count
    ∧ (mergeState s (analyze_correlation s r)).days_back = s.days_back
    ∧ (mergeState s (analyze_correlation s r)).error = s.error
    ∧ (mergeState s (analyze_correlation s r)).recommendation = s.recommendation
    ∧ (mergeState s (analyze_correlation s r)).fetch_failures = s.fetch_failures :=
  ⟨keep_last_self _, keep_last_self _, keep_last_self _, keep_last_self _, keep_last_self _,
   mergeState_ff_pass _ _ rfl⟩

theorem widen_step_frame (s : TriageState) :
    (mergeState s (widen_window s)).ticket = s.ticket
    ∧ (mergeState s (widen_window s)).retry_count = some (s.retry_count.getD 0 + 1)
    ∧ (mergeState s (widen_window s)).error = s.error
    ∧ (mergeState s (widen_window s)).fetch_failures = s.fetch_failures :=
  ⟨keep_last_self _, rfl, keep_last_self _, mergeState_ff_pass _ _ rfl⟩

theorem recommend_step_frame (s : TriageState) (r : RecommendOut) :
    (mergeState s (generate_recommendation s r)).ticket = s.ticket
    ∧ (mergeState s (generate_recommendation s r)).error = s.error
    ∧ (mergeState s (generate_recommendation s r)).fetch_failures = s.fetch_failures
    ∧ (mergeState s (generate_recommendation s r)).recommendation
        = some
          { suggested_tags := r.suggested_tags.getD []
            correlation_summary := r.correlation_summary.getD ""
            next_action := r.next_action.getD "reproduce"
            next_action_reason := r.next_action_reason.getD ""
            questions_for_customer := r.questions_for_customer
            engineering_context := r.engineering_context } :=
  ⟨keep_last_self _, keep_last_self _, mergeState_ff_pass _ _ rfl, rfl⟩

theorem route_not_low (s : TriageState) (h : (2 : Int) ≤ s.retry_count.getD 0) :
    route_decision s ≠ .low_confidence := by
  intro hl
  have := route_low_retry s hl
  omega

/-- The widen-window node executes at most `max 0 (2 - retry_count)` further
times from any loop state: the `retry_count < 2` guard of `route_decision`
bounds the recursion. -/
theorem loopRun_widen_bound (o : Oracles) :
    ∀ (fuel iter : Nat) (s : TriageState) (c : Counts),
      (loopRun o fuel iter s c).2.widenCalls
        ≤ c.widenCalls + (2 - (s.retry_count.getD 0 : Int)).toNat := by
  intro fuel
  induction fuel with
  | zero => intro iter s c; exact Nat.le_add_right _ _
  | succ fuel ih =>
    intro iter s c
    simp only [loopRun]
    split
    · exact Nat.le_add_right _ _
    · split
      · exact Nat.le_add_right _ _
      · rename_i result ha
        split
        · rename_i hroute
          have hr2 : (mergeState (runFetchJoin s o iter)
              (analyze_correlation (runFetchJoin s o iter) result)).retry_count = s.retry_count := by
            rw [(analyze_step_frame _ _).2.1, (fetchJoin_frame s o iter).2.1]
          have hlow := route_low_retry _ hroute
          rw [hr2] at hlow
          have hb := ih (iter + 1)
            (mergeState
              (mergeState (runFetchJoin s o iter)
                (analyze_correlation (runFetchJoin s o iter) result))
              (widen_window
                (mergeState (runFetchJoin s o iter)
                  (analyze_correlation (runFetchJoin s o iter) result))))
            { modelCalls := c.modelCalls + 1, fetchCalls := c.fetchCalls + 3
              widenCalls := c.widenCalls + 1 }
          rw [(widen_step_frame _).2.1, hr2] at hb
          simp only [Option.getD_some] at hb
          refine le_trans hb ?_
          show c.widenCalls + 1 + ((2 : Int) - (s.retry_count.getD 0 + 1)).toNat
            ≤ c.widenCalls + ((2 : Int) - s.retry_count.getD 0).toNat
          omega
        · split
          · exact Nat.le_add_right _ _
          · split
            · exact Nat.le_add_right _ _
            · exact Nat.le_add_right _ _

theorem requireTicketKeys_keyError (s : TriageState) (e : Exn)
    (h : requireTicketKeys s = .error e) : ∃ f, e = .keyError f := by
  unfold requireTicketKeys at h
  split at h
  · injection h with h; exact ⟨"ticket", h.symm⟩
  · split at h
    · injection h with h; exact ⟨"subject", h.symm⟩
    · split at h
      · injection h with h; exact ⟨"body", h.symm⟩
      · exact absurd h (by simp)

/-- From any loop state with enough fuel relative to the retry counter, the
embedding fuel is never exhausted: the loop is bounded by the
`retry_count < 2` routing guard, not by the fuel. -/
theorem loopRun_no_exhaust (o : Oracles) :
    ∀ (fuel iter : Nat) (s : TriageState) (c : Counts),
      2 - (s.retry_count.getD 0 : Int) ≤ (fuel : Int) →
      (loopRun o (fuel + 1) iter s c).1 ≠ .error .fuelExhausted := by
  intro fuel
  induction fuel with
  | zero =>
    intro iter s c h
    simp only [loopRun]
    split
    · rename_i e heqk
      obtain ⟨f, hf⟩ := requireTicketKeys_keyError _ _ heqk
      simp [hf]
    · split
      · simp
      · rename_i result ha
        split
        · rename_i hroute
          have hr2 : (mergeState (runFetchJoin s o iter)
              (analyze_correlation (runFetchJoin s o iter) result)).retry_count = s.retry_count := by
            rw [(analyze_step_frame _ _).2.1, (fetchJoin_frame s o iter).2.1]
          have hlow := route_low_retry _ hroute
          rw [hr2] at hlow
          exact absurd hlow (by omega)
        · split
          · rename_i e heqk
            obtain ⟨f, hf⟩ := requireTicketKeys_keyError _ _ heqk
            simp [hf]
          · split
            · simp
            · simp
  | succ fuel ih =>
    intro iter s c h
    simp only [loopRun]
    split
    · rename_i e heqk
      obtain ⟨f, hf⟩ := requireTicketKeys_keyError _ _ heqk
      simp [hf]
    · split
      · simp
      · rename_i result ha
        split
        · rename_i hroute
          have hr2 : (mergeState (runFetchJoin s o iter)
              (analyze_correlation (runFetchJoin s o iter) result)).retry_count = s.retry_count := by
            rw [(analyze_step_frame _ _).2.1, (fetchJoin_frame s o iter).2.1]
          have hnext := ih (iter + 1)
            (mergeState
              (mergeState (runFetchJoin s o iter)
                (analyze_correlation (runFetchJoin s o iter) result))
              (widen_window
                (mergeState (runFetchJoin s o iter)
                  (analyze_correlation (runFetchJoin s o iter) result))))
            { modelCalls := c.modelCalls + 1, fetchCalls := c.fetchCalls + 3
              widenCalls := c.widenCalls + 1 }
          rw [(widen_step_frame _).2.1, hr2] at hnext
          refine hnext ?_
          simp only [Option.getD_some]
          omega
        · split
          · rename_i e heqk
            obtain ⟨f, hf⟩ := requireTicketKeys_keyError _ _ heqk
            simp [hf]
          · split
            · simp
            · simp

/-- Any `.ok` outcome of the loop preserves duplicate-freedom of the
failure-set channel. -/
theorem loopRun_nodup (o : Oracles) :
    ∀ (fuel iter : Nat) (s : TriageState) (c : Counts) (sf : TriageState) (cf : Counts),
      loopRun o fuel iter s c = (.ok sf, cf) →
      (s.fetch_failures.getD []).Nodup →
      (sf.fetch_failures.getD []).Nodup := by
  intro fuel
  induction fuel with
  | zero =>
    intro iter s c sf cf heq hnd
    simp only [loopRun, Prod.mk.injEq] at heq
    exact absurd heq.1 (by simp)
  | succ fuel ih =>
    intro iter s c sf cf heq hnd
    simp only [loopRun] at heq
    split at heq
    · simp at heq
    · split at heq
      · simp at heq
      · rename_i result ha
        split at heq
        · rename_i hroute
          refine ih _ _ _ _ _ heq ?_
          rw [(widen_step_frame _).2.2.2, (analyze_step_frame _ _).2.2.2.2.2]
          exact fetchJoin_nodup s o iter hnd
        · split at heq
          · simp at heq
          · split at heq
            · simp at heq
            · rename_i result2 hrec
              simp only [Prod.mk.injEq] at heq
              obtain ⟨h1, _⟩ := heq
              injection h1 with h1
              rw [← h1]
              rw [mergeState_ff_pass _ _ (verify_ff _), (recommend_step_frame _ _).2.2.1,
                (analyze_step_frame _ _).2.2.2.2.2]
              exact fetchJoin_nodup s o iter hnd

/-- When every model call succeeds and the ticket keys are present, the loop
always delivers a final state produced by the verification gate, preserving
the upstream error, recording a recommendation, and performing at least one
more correlation call, the recommendation call and one full fetch fan-out —
for any fetcher behaviour whatsoever. -/
theorem loopRun_total (o : Oracles)
    (hana : ∀ i, ∃ r, o.analyzeRes i = .ok r)
    (hrec : ∃ r, o.recommendRes = .ok r) :
    ∀ (fuel iter : Nat) (s : TriageState) (c : Counts),
      requireTicketKeys s = .ok () →
      2 - (s.retry_count.getD 0 : Int) ≤ (fuel : Int) →
      ∃ u c2, loopRun o (fuel + 1) iter s c = (.ok (mergeState u (verify u)), c2)
        ∧ u.error = s.error
        ∧ (∃ r, u.recommendation = some r)
        ∧ c.modelCalls + 2 ≤ c2.modelCalls
        ∧ c.fetchCalls + 3 ≤ c2.fetchCalls := by
  intro fuel
  induction fuel with
  | zero =>
    intro iter s c hk h
    obtain ⟨ra, hra⟩ := hana iter
    obtain ⟨rr, hrr⟩ := hrec
    have hk1 : requireTicketKeys (runFetchJoin s o iter) = .ok () := by
      rw [requireTicketKeys_congr _ _ (fetchJoin_frame s o iter).1]; exact hk
    simp only [loopRun, hk1, hra]
    cases hroute : route_decision
        (mergeState (runFetchJoin s o iter)
          (analyze_correlation (runFetchJoin s o iter) ra)) with
    | low_confidence =>
      have hr2 : (mergeState (runFetchJoin s o iter)
          (analyze_correlation (runFetchJoin s o iter) ra)).retry_count = s.retry_count := by
        rw [(analyze_step_frame _ _).2.1, (fetchJoin_frame s o iter).2.1]
      have hlow := route_low_retry _ hroute
      rw [hr2] at hlow
      exact absurd hlow (by omega)
    | correlated =>
      have hk2 : requireTicketKeys
          (mergeState (runFetchJoin s o iter)
            (analyze_correlation (runFetchJoin s o iter) ra)) = .ok () := by
        have ht2 : (mergeState (runFetchJoin s o iter)
            (analyze_correlation (runFetchJoin s o iter) ra)).ticket = s.ticket := by
          rw [(analyze_step_frame _ _).1, (fetchJoin_frame s o iter).1]
        rw [requireTicketKeys_congr _ _ ht2]
        exact hk
      simp only [hk2, hrr]
      refine ⟨_, _, rfl, ?_, ⟨_, (recommend_step_frame _ _).2.2.2⟩, ?_, ?_⟩
      · rw [(recommend_step_frame _ _).2.1, (analyze_step_frame _ _).2.2.2.1,
          (fetchJoin_frame s o iter).2.2.2.1]
      · show c.modelCalls + 2 ≤ c.modelCalls + 1 + 1
        omega
      · show c.fetchCalls + 3 ≤ c.fetchCalls + 3
        omega
    | not_correlated =>
      have hk2 : requireTicketKeys
          (mergeState (runFetchJoin s o iter)
            (analyze_correlation (runFetchJoin s o iter) ra)) = .ok () := by
        have ht2 : (mergeState (runFetchJoin s o iter)
            (analyze_correlation (runFetchJoin s o iter) ra)).ticket = s.ticket := by
          rw [(analyze_step_frame _ _).1, (fetchJoin_frame s o iter).1]
        rw [requireTicketKeys_congr _ _ ht2]
        exact hk
      simp only [hk2, hrr]
      refine ⟨_, _, rfl, ?_, ⟨_, (recommend_step_frame _ _).2.2.2⟩, ?_, ?_⟩
      · rw [(recommend_step_frame _ _).2.1, (analyze_step_frame _ _).2.2.2.1,
          (fetchJoin_frame s o iter).2.2.2.1]
      · show c.modelCalls + 2 ≤ c.modelCalls + 1 + 1
        omega
      · show c.fetchCalls + 3 ≤ c.fetchCalls + 3
        omega
  | succ fuel ih =>
    intro iter s c hk h
    obtain ⟨ra, hra⟩ := hana iter
    obtain ⟨rr, hrr⟩ := hrec
    have hk1 : requireTicketKeys (runFetchJoin s o iter) = .ok () := by
      rw [requireTicketKeys_congr _ _ (fetchJoin_frame s o iter).1]; exact hk
    simp only [loopRun, hk1, hra]
    cases hroute : route_decision
        (mergeState (runFetchJoin s o iter)
          (analyze_correlation (runFetchJoin s o iter) ra)) with
    | low_confidence =>
      have hr2 : (mergeState (runFetchJoin s o iter)
          (analyze_correlation (runFetchJoin s o iter) ra)).retry_count = s.retry_count := by
        rw [(analyze_step_frame _ _).2.1, (fetchJoin_frame s o iter).2.1]
      have hk3 : requireTicketKeys
          (mergeState
            (mergeState (runFetchJoin s o iter)
              (analyze_correlation (runFetchJoin s o iter) ra))
            (widen_window
              (mergeState (runFetchJoin s o iter)
                (analyze_correlation (runFetchJoin s o iter) ra)))) = .ok () := by
        have ht3 : (mergeState
            (mergeState (runFetchJoin s o iter)
              (analyze_correlation (runFetchJoin s o iter) ra))
            (widen_window
              (mergeState (runFetchJoin s o iter)
                (analyze_correlation (runFetchJoin s o iter) ra)))).ticket = s.ticket := by
          rw [(widen_step_frame _).1, (analyze_step_frame _ _).1, (fetchJoin_frame s o iter).1]
        rw [requireTicketKeys_congr _ _ ht3]
        exact hk
      have hretry3 : 2 - ((mergeState
            (mergeState (runFetchJoin s o iter)
              (analyze_correlation (runFetchJoin s o iter) ra))
            (widen_window
              (mergeState (runFetchJoin s o iter)
                (analyze_correlation (runFetchJoin s o iter) ra)))).retry_count.getD 0 : Int)
          ≤ (fuel : Int) := by
        rw [(widen_step_frame _).2.1, hr2]
        simp only [Option.getD_some]
        have hcast : ((fuel + 1 : Nat) : Int) = (fuel : Int) + 1 := by push_cast; ring
        rw [hcast] at h
        omega
      obtain ⟨u, c2, hequ, herr, hrecm, hm, hf⟩ := ih (iter + 1)
        (mergeState
          (mergeState (runFetchJoin s o iter)
            (analyze_correlation (runFetchJoin s o iter) ra))
          (widen_window
            (mergeState (runFetchJoin s o iter)
              (analyze_correlation (runFetchJoin s o iter) ra))))
        { modelCalls := c.modelCalls + 1, fetchCalls := c.fetchCalls + 3
          widenCalls := c.widenCalls + 1 }
        hk3 hretry3
      refine ⟨u, c2, hequ, ?_, hrecm, ?_, ?_⟩
      · rw [herr, (widen_step_frame _).2.2.1, (analyze_step_frame _ _).2.2.2.1,
          (fetchJoin_frame s o iter).2.2.2.1]
      · have hm2 : c.modelCalls + 1 + 2 ≤ c2.modelCalls := hm
        omega
      · have hf2 : c.fetchCalls + 3 + 3 ≤ c2.fetchCalls := hf
        omega
    | correlated =>
      have hk2 : requireTicketKeys
          (mergeState (runFetchJoin s o iter)
            (analyze_correlation (runFetchJoin s o iter) ra)) = .ok () := by
        have ht2 : (mergeState (runFetchJoin s o iter)
            (analyze_correlation (runFetchJoin s o iter) ra)).ticket = s.ticket := by
          rw [(analyze_step_frame _ _).1, (fetchJoin_frame s o iter).1]
        rw [requireTicketKeys_congr _ _ ht2]
        exact hk
      simp only [hk2, hrr]
      refine ⟨_, _, rfl, ?_, ⟨_, (recommend_step_frame _ _).2.2.2⟩, ?_, ?_⟩
      · rw [(recommend_step_frame _ _).2.1, (analyze_step_frame _ _).2.2.2.1,
          (fetchJoin_frame s o iter).2.2.2.1]
      · show c.modelCalls + 2 ≤ c.modelCalls + 1 + 1
        omega
      · show c.fetchCalls + 3 ≤ c.fetchCalls + 3
        omega
    | not_correlated =>
      have hk2 : requireTicketKeys
          (mergeState (runFetchJoin s o iter)
            (analyze_correlation (runFetchJoin s o iter) ra)) = .ok () := by
        have ht2 : (mergeState (runFetchJoin s o iter)
            (analyze_correlation (runFetchJoin s o iter) ra)).ticket = s.ticket := by
          rw [(analyze_step_frame _ _).1, (fetchJoin_frame s o iter).1]
        rw [requireTicketKeys_congr _ _ ht2]
        exact hk
      simp only [hk2, hrr]
      refine ⟨_, _, rfl, ?_, ⟨_, (recommend_step_frame _ _).2.2.2⟩, ?_, ?_⟩
      · rw [(recommend_step_frame _ _).2.1, (analyze_step_frame _ _).2.2.2.1,
          (fetchJoin_frame s o iter).2.2.2.1]
      · show c.modelCalls + 2 ≤ c.modelCalls + 1 + 1
        omega
      · show c.fetchCalls + 3 ≤ c.fetchCalls + 3
        omega

/-! ### Entry-level helpers -/

theorem requireTicketKeys_ok (s : TriageState) (t : Ticket) (x y : String)
    (h1 : s.ticket = some t) (h2 : t.subject = some x) (h3 : t.body = some y) :
    requireTicketKeys s = .ok () := by
  simp only [requireTicketKeys, h1, h2, h3]

theorem requireTicketKeys_errBody (s : TriageState) (t : Ticket) (x : String)
    (h1 : s.ticket = some t) (h2 : t.subject = some x) (h3 : t.body = none) :
    requireTicketKeys s = .error (.keyError "body") := by
  simp only [requireTicketKeys, h1, h2, h3]

theorem truthy_isSome (o : Option String) (h : truthyStr o = true) : ∃ x, o = some x := by
  cases o with
  | none => exact absurd h (by simp [truthyStr])
  | some x => exact ⟨x, rfl⟩

theorem intake_reject_none (s : TriageState) (h : s.ticket = none) :
    mergeState s (intake s) = { s with error := some "No ticket provided" } := by
  have : intake s = { s with error := some "No ticket provided" } := by
    rw [intake, h]
  rw [this]
  exact merge_set_error s "No ticket provided"

theorem intake_reject_missing (s : TriageState) (t : Ticket) (h : s.ticket = some t)
    (hm : requiredMissing t ≠ []) :
    mergeState s (intake s)
      = { s with error := some ("Ticket missing required fields: " ++ pyStrListRepr (requiredMissing t)) } := by
  have : intake s
      = { s with error := some ("Ticket missing required fields: " ++ pyStrListRepr (requiredMissing t)) } := by
    rw [intake, h]
    exact if_pos hm
  rw [this]
  exact merge_set_error s _

theorem intake_accept (s : TriageState) (t : Ticket) (h : s.ticket = some t)
    (hm : requiredMissing t = []) :
    mergeState s (intake s)
      = { s with
          retry_count := some 0
          days_back := some 1
          fetch_failures := some (s.fetch_failures.getD []) } := by
  have : intake s
      = { s with retry_count := some 0, days_back := some 1, fetch_failures := some [], error := none } := by
    rw [intake, h]
    exact if_neg (by simp [hm])
  rw [this]
  exact merge_intake_init s

theorem classify_step_frame (s : TriageState) (r : ClassifyOut) :
    (mergeState s (classify_issue_type s r)).ticket = s.ticket
    ∧ (mergeState s (classify_issue_type s r)).retry_count = s.retry_count
    ∧ (mergeState s (classify_issue_type s r)).error = s.error
    ∧ (mergeState s (classify_issue_type s r)).fetch_failures = s.fetch_failures :=
  ⟨keep_last_self _, keep_last_self _, keep_last_self _, mergeState_ff_pass _ _ rfl⟩

/-- After intake (accepting or not) from a caller-shaped initial state, the
retry counter reads as `0`. -/
theorem intake_retry_init (t : Option Ticket) (rd : Option String) :
    (mergeState (initialState t rd) (intake (initialState t rd))).retry_count.getD 0 = 0 := by
  cases t with
  | none => rw [intake_reject_none _ rfl]; rfl
  | some tk =>
    by_cases hm : requiredMissing tk = []
    · rw [intake_accept _ tk rfl hm]; rfl
    · rw [intake_reject_missing _ tk rfl hm]; rfl

/-- After intake and classification from a caller-shaped initial state, the
failure set reads as empty. -/
theorem run_entry_ff (t : Option Ticket) (rd : Option String) (result : ClassifyOut) :
    ((mergeState (mergeState (initialState t rd) (intake (initialState t rd)))
      (classify_issue_type (mergeState (initialState t rd) (intake (initialState t rd))) result))
      |>.fetch_failures.getD []) = [] := by
  rw [(classify_step_frame _ _).2.2.2]
  cases t with
  | none => rw [intake_reject_none _ rfl]; rfl
  | some tk =>
    by_cases hm : requiredMissing tk = []
    · rw [intake_accept _ tk rfl hm]; rfl
    · rw [intake_reject_missing _ tk rfl hm]; rfl

theorem merge_lists_mem (a b : List String) (x : String) :
    x ∈ merge_lists (some a) (some b) ↔ x ∈ a ∨ x ∈ b := by
  unfold merge_lists
  simp only [Option.getD_some]
  have key : ∀ (b acc : List String) (x : String),
      x ∈ b.foldl (fun merged item => if merged.contains item then merged else merged ++ [item]) acc
        ↔ x ∈ acc ∨ x ∈ b := by
    intro b
    induction b with
    | nil => intro acc x; simp
    | cons y ys ih =>
      intro acc x
      simp only [List.foldl_cons]
      by_cases hy : acc.contains y
      · rw [if_pos hy, ih]
        have hy2 : y ∈ acc := by simpa using hy
        constructor
        · rintro (h | h)
          · exact Or.inl h
          · exact Or.inr (List.mem_cons_of_mem _ h)
        · rintro (h | h)
          · exact Or.inl h
          · rcases List.mem_cons.mp h with rfl | h
            · exact Or.inl hy2
            · exact Or.inr h
      · rw [if_neg hy, ih]
        simp only [List.mem_append, List.mem_singleton, List.mem_cons]
        tauto
  exact key b a x

/-! ### Claim C5: the retry loop is bounded -/

/-- C5: in every run started from the caller-supplied initial state — for any
ticket, reference date, fetcher behaviour and model behaviour — the
widen-window node executes at most twice, and the run terminates by the
`retry_count < 2` routing guard rather than by the embedding fuel. -/
theorem retry_loop_bounded :
    ∀ (ticket : Option Ticket) (reference_date : Option String) (o : Oracles),
      (runTriage ticket reference_date o).2.widenCalls ≤ 2
      ∧ (runTriage ticket reference_date o).1 ≠ .error .fuelExhausted := by
  intro t rd o
  constructor
  · simp only [runTriage]
    split
    · exact Nat.zero_le 2
    · split
      · exact Nat.zero_le 2
      · rename_i result hcl
        refine le_trans (loopRun_widen_bound o 3 0 _ _) ?_
        have hr : (mergeState (mergeState (initialState t rd) (intake (initialState t rd)))
            (classify_issue_type (mergeState (initialState t rd) (intake (initialState t rd)))
              result)).retry_count.getD 0 = 0 := by
          rw [(classify_step_frame _ _).2.1]
          exact intake_retry_init t rd
        rw [hr]
        show 0 + ((2 : Int) - 0).toNat ≤ 2
        omega
  · simp only [runTriage]
    split
    · rename_i e heqk
      obtain ⟨f, hf⟩ := requireTicketKeys_keyError _ _ heqk
      simp [hf]
    · split
      · simp
      · rename_i result hcl
        have hr : (mergeState (mergeState (initialState t rd) (intake (initialState t rd)))
            (classify_issue_type (mergeState (initialState t rd) (intake (initialState t rd)))
              result)).retry_count.getD 0 = 0 := by
          rw [(classify_step_frame _ _).2.1]
          exact intake_retry_init t rd
        refine loopRun_no_exhaust o 2 0 _ _ ?_
        rw [hr]
        show (2 : Int) - 0 ≤ ((2 : Nat) : Int)
        omega

/-! ### Claim C6: the failure set -/

/-- C6: `merge_lists` is a set union — membership is the union of memberships
and duplicate-freedom is preserved — so `fetch_failures` never holds
duplicates in any final state of any run; and in the concrete run in which
all three fetchers fail at every one of the three fetch rounds while the
model calls stay healthy, the final failure set is exactly
`{"github", "linear", "intercom"}`, the loop retried twice, and the run still
verifies. -/
theorem fetch_failures_set_semantics :
    (∀ (a b : List String) (x : String), x ∈ merge_lists (some a) (some b) ↔ x ∈ a ∨ x ∈ b)
    ∧ (∀ (a b : List String), a.Nodup → (merge_lists (some a) (some b)).Nodup)
    ∧ (∀ (t : Option Ticket) (rd : Option String) (o : Oracles) (sf : TriageState) (cf : Counts),
        runTriage t rd o = (.ok sf, cf) → (sf.fetch_failures.getD []).Nodup)
    ∧ ((runTriage (some gsTicket) none allFailOracles).1.map
        (fun sf => (sf.fetch_failures, sf.verified)))
      = .ok (some ["github", "linear", "intercom"], some true)
    ∧ (runTriage (some gsTicket) none allFailOracles).2.widenCalls = 2 := by
  refine ⟨merge_lists_mem, fun a b h => merge_lists_nodup (some a) (some b) h, ?_, by decide, by decide⟩
  intro t rd o sf cf heq
  simp only [runTriage] at heq
  split at heq
  · simp at heq
  · split at heq
    · simp at heq
    · rename_i result hcl
      refine loopRun_nodup o 3 0 _ _ _ _ heq ?_
      rw [run_entry_ff t rd result]
      exact List.nodup_nil

/-- Witness for C6: the set-union reading of `merge_lists` at concrete lists,
and duplicate-freedom of the failure set in the concrete all-fetchers-fail
run. -/
theorem fetch_failures_set_semantics_witness :
    ("linear" ∈ merge_lists (some ["github"]) (some ["linear"])
      ↔ "linear" ∈ ["github"] ∨ "linear" ∈ ["linear"])
    ∧ (merge_lists (some ["github"]) (some ["github", "linear"])).Nodup
    ∧ ((okStateD (runTriage (some gsTicket) none allFailOracles).1).fetch_failures.getD []).Nodup := by
  refine ⟨fetch_failures_set_semantics.1 ["github"] ["linear"] "linear",
    fetch_failures_set_semantics.2.1 ["github"] ["github", "linear"] (by decide),
    fetch_failures_set_semantics.2.2.1 (some gsTicket) none allFailOracles
      (okStateD (runTriage (some gsTicket) none allFailOracles).1)
      (runTriage (some gsTicket) none allFailOracles).2 (by decide)⟩

/-! ### Claim C2: intake errors do not short-circuit -/

/-- C2 counterexample: for the ticket whose required `body` field is empty,
the run does end with `verified = false` and the intake error — but the graph
has no conditional edge after intake, so the classification and correlation
model calls and the full fetch fan-out are still executed (3 model calls and
3 fetcher calls here), contradicting the claim that no fetch step and no
model call occur. -/
theorem intake_shortcircuit_counterexample :
    (runTriage (some tEmptyBody) none benignOracles).2.modelCalls = 3
    ∧ (runTriage (some tEmptyBody) none benignOracles).2.fetchCalls = 3
    ∧ ((runTriage (some tEmptyBody) none benignOracles).1.map (fun sf => (sf.verified, sf.error)))
      = .ok (some false, some ("Ticket missing required fields: " ++ pyStrListRepr ["body"])) :=
  ⟨by decide, by decide, by decide⟩

/-- C2 (amended): when a required field is present but empty, intake records
the error, yet control still flows through the whole pipeline — the model
calls and fetches ARE executed — and the run ends `verified = false` with the
intake error preserved (provided the model calls succeed).  When the `body`
key is absent entirely, the run instead unwinds with a `KeyError` raised
while the classification prompt is built, before any fetch or model call. -/
theorem intake_error_flows_through :
    (∀ (t : Ticket) (rd : Option String) (o : Oracles),
        truthyStr t.subject = true → t.body = some "" → oraclesTotal o →
        ∃ sf cf, runTriage (some t) rd o = (.ok sf, cf)
          ∧ sf.verified = some false
          ∧ sf.error = some ("Ticket missing required fields: " ++ pyStrListRepr ["body"])
          ∧ 2 ≤ cf.modelCalls ∧ 3 ≤ cf.fetchCalls)
    ∧ (∀ (t : Ticket) (rd : Option String) (o : Oracles),
        t.subject.isSome = true → t.body = none →
        runTriage (some t) rd o = (.error (.keyError "body"), ⟨0, 0, 0⟩)) := by
  constructor
  · intro t rd o hsub hbody ho
    obtain ⟨hcl, hana, hrec⟩ := ho
    obtain ⟨rc, hc⟩ := hcl
    obtain ⟨x, hx⟩ := truthy_isSome _ hsub
    have hmiss : requiredMissing t = ["body"] := by
      unfold requiredMissing
      rw [hsub, hbody]
      rfl
    have hmsg : pyStrListRepr (requiredMissing t) = pyStrListRepr ["body"] := by rw [hmiss]
    have hs1 : mergeState (initialState (some t) rd) (intake (initialState (some t) rd))
        = { initialState (some t) rd with
            error := some ("Ticket missing required fields: " ++ pyStrListRepr ["body"]) } := by
      rw [intake_reject_missing (initialState (some t) rd) t rfl (by rw [hmiss]; simp), hmsg]
    have hk1 : requireTicketKeys
        (mergeState (initialState (some t) rd) (intake (initialState (some t) rd))) = .ok () := by
      rw [hs1]
      exact requireTicketKeys_ok _ t x "" rfl hx hbody
    have hretry : 2 - ((mergeState (mergeState (initialState (some t) rd)
          (intake (initialState (some t) rd)))
        (classify_issue_type (mergeState (initialState (some t) rd)
          (intake (initialState (some t) rd))) rc)).retry_count.getD 0 : Int) ≤ ((2 : Nat) : Int) := by
      rw [(classify_step_frame _ _).2.1, intake_retry_init t rd]
      omega
    have hk2 : requireTicketKeys
        (mergeState (mergeState (initialState (some t) rd) (intake (initialState (some t) rd)))
          (classify_issue_type (mergeState (initialState (some t) rd)
            (intake (initialState (some t) rd))) rc)) = .ok () := by
      rw [requireTicketKeys_congr _ _ (classify_step_frame _ _).1]
      exact hk1
    obtain ⟨u, c2, hequ, herr, hrecm, hm, hf⟩ :=
      loopRun_total o hana hrec 2 0
        (mergeState (mergeState (initialState (some t) rd) (intake (initialState (some t) rd)))
          (classify_issue_type (mergeState (initialState (some t) rd)
            (intake (initialState (some t) rd))) rc))
        ⟨1, 0, 0⟩ hk2 hretry
    have herr2 : u.error = some ("Ticket missing required fields: " ++ pyStrListRepr ["body"]) := by
      rw [herr, (classify_step_frame _ _).2.2.1, hs1]
    have htr : truthyStr u.error = true := by rw [herr2]; rfl
    refine ⟨mergeState u (verify u), c2, ?_, ?_, ?_, ?_, ?_⟩
    · simp only [runTriage, hk1, hc]
      exact hequ
    · rw [verify_truthy u htr]
    · rw [verify_truthy u htr]
      show u.error = _
      exact herr2
    · have hm2 : 1 + 2 ≤ c2.modelCalls := hm
      omega
    · have hf2 : 0 + 3 ≤ c2.fetchCalls := hf
      omega
  · intro t rd o hsub hbody
    obtain ⟨x, hx⟩ : ∃ x, t.subject = some x := by
      cases hs : t.subject with
      | none => rw [hs] at hsub; exact absurd hsub (by simp)
      | some x => exact ⟨x, rfl⟩
    have hs1t : (mergeState (initialState (some t) rd)
        (intake (initialState (some t) rd))).ticket = some t := by
      rw [intake_reject_missing (initialState (some t) rd) t rfl
        (by unfold requiredMissing; rw [hbody]; simp [truthyStr])]
      rfl
    have hk1 : requireTicketKeys
        (mergeState (initialState (some t) rd) (intake (initialState (some t) rd)))
        = .error (.keyError "body") :=
      requireTicketKeys_errBody _ t x hs1t hx hbody
    simp only [runTriage, hk1]

/-- Witness for C2 (amended): the empty-body ticket flows through to a failed
verification with the model and fetch work performed, and the absent-body
ticket raises `KeyError` with no model or fetch work. -/
theorem intake_error_flows_through_witness :
    ((runTriage (some tEmptyBody) none benignOracles).1.map (fun sf => (sf.verified, sf.error)))
      = .ok (some false, some ("Ticket missing required fields: " ++ pyStrListRepr ["body"]))
    ∧ 2 ≤ (runTriage (some tEmptyBody) none benignOracles).2.modelCalls
    ∧ runTriage (some tNoBody) none benignOracles = (.error (.keyError "body"), ⟨0, 0, 0⟩) := by
  obtain ⟨sf, cf, heq, hv, he, hm, hf⟩ :=
    intake_error_flows_through.1 tEmptyBody none benignOracles (by decide) rfl
      ⟨⟨_, rfl⟩, fun _ => ⟨_, rfl⟩, ⟨_, rfl⟩⟩
  refine ⟨?_, ?_, intake_error_flows_through.2 tNoBody none benignOracles (by decide) rfl⟩
  · rw [heq]
    simp [Except.map, hv, he]
  · rw [heq]
    exact hm

/-! ### Claim C3: failure resolution at the workflow boundary -/

/-- C3 counterexample: a model-call failure during classification unwinds as
an exception out of the workflow — the caller observes no populated final
state at all, contradicting the claim that every failure mode resolves to
`verified = false` plus an error. -/
theorem model_failure_unwinds_counterexample :
    runTriage (some gsTicket) none failClassifyOracles = (.error (.model .raised), ⟨1, 0, 0⟩) := by
  decide

/-- C3 (amended): per-source fetch failures are absorbed and never prevent a
populated final state — for a ticket that intake accepts and model calls that
all return parseable output, the run ends in a populated state whose
verification status is set, whatever the fetchers do; but a model-call
failure or malformed model response during classification, correlation or
recommendation unwinds as an exception to the caller instead of resolving to
`verified = false`. -/
theorem failure_resolution_amended :
    ∀ (t : Ticket) (rd : Option String) (o : Oracles),
      truthyStr t.subject = true → truthyStr t.body = true → oraclesTotal o →
      ∃ sf cf, runTriage (some t) rd o = (.ok sf, cf)
        ∧ (sf.verified = some true ∨ (sf.verified = some false ∧ ∃ m, sf.error = some m)) := by
  intro t rd o hsub hbody ho
  obtain ⟨hcl, hana, hrec⟩ := ho
  obtain ⟨rc, hc⟩ := hcl
  obtain ⟨x, hx⟩ := truthy_isSome _ hsub
  obtain ⟨y, hy⟩ := truthy_isSome _ hbody
  have hmiss : requiredMissing t = [] := by
    unfold requiredMissing
    rw [hsub, hbody]
    rfl
  have hs1 : mergeState (initialState (some t) rd) (intake (initialState (some t) rd))
      = { initialState (some t) rd with
          retry_count := some 0
          days_back := some 1
          fetch_failures := some ((initialState (some t) rd).fetch_failures.getD []) } :=
    intake_accept (initialState (some t) rd) t rfl hmiss
  have hk1 : requireTicketKeys
      (mergeState (initialState (some t) rd) (intake (initialState (some t) rd))) = .ok () := by
    rw [hs1]
    exact requireTicketKeys_ok _ t x y rfl hx hy
  have hretry : 2 - ((mergeState (mergeState (initialState (some t) rd)
        (intake (initialState (some t) rd)))
      (classify_issue_type (mergeState (initialState (some t) rd)
        (intake (initialState (some t) rd))) rc)).retry_count.getD 0 : Int) ≤ ((2 : Nat) : Int) := by
    rw [(classify_step_frame _ _).2.1, intake_retry_init t rd]
    omega
  have hk2 : requireTicketKeys
      (mergeState (mergeState (initialState (some t) rd) (intake (initialState (some t) rd)))
        (classify_issue_type (mergeState (initialState (some t) rd)
          (intake (initialState (some t) rd))) rc)) = .ok () := by
    rw [requireTicketKeys_congr _ _ (classify_step_frame _ _).1]
    exact hk1
  obtain ⟨u, c2, hequ, herr, hrecm, hm, hf⟩ :=
    loopRun_total o hana hrec 2 0
      (mergeState (mergeState (initialState (some t) rd) (intake (initialState (some t) rd)))
        (classify_issue_type (mergeState (initialState (some t) rd)
          (intake (initialState (some t) rd))) rc))
      ⟨1, 0, 0⟩ hk2 hretry
  refine ⟨mergeState u (verify u), c2, ?_, verify_status u⟩
  simp only [runTriage, hk1, hc]
  exact hequ

/-- Witness for C3 (amended): with a healthy ticket, healthy model calls and
all fetchers failing, the run still delivers a populated, status-bearing
final state. -/
theorem failure_resolution_amended_witness :
    ((runTriage (some gsTicket) none allFailOracles).1.map (fun sf => sf.verified.isSome))
      = .ok true := by
  obtain ⟨sf, cf, heq, hst⟩ :=
    failure_resolution_amended gsTicket none allFailOracles (by decide) (by decide)
      ⟨⟨_, rfl⟩, fun _ => ⟨_, rfl⟩, ⟨_, rfl⟩⟩
  rw [heq]
  rcases hst with h | ⟨h, _⟩ <;> simp [Except.map, h]

/-- C8 counterexample: the round-trip fails for a well-formed JSON object
text containing the fence marker inside a string value.  The plain text
parses to the expected object, but once fenced (with the trailing comma
added) the fence regex closes at the in-string marker, the captured text has
no `}`, and the parser fails with "No JSON object found" — so the two parses
differ. -/
theorem parser_roundtrip_counterexample :
    parse_json_response cexJson
      = .ok (JValue.obj [(['a'], JValue.str ('x' :: tick :: tick :: tick :: 'y' :: []))])
    ∧ parse_json_response (mkFenced (addComma cexJson)) = .error .noObject
    ∧ parse_json_response (mkFenced (addComma cexJson)) ≠ parse_json_response cexJson := by
  refine ⟨rfl, rfl, ?_⟩
  intro h
  rw [show parse_json_response (mkFenced (addComma cexJson)) = .error .noObject from rfl] at h
  rw [show parse_json_response cexJson
      = .ok (JValue.obj [(['a'], JValue.str ('x' :: tick :: tick :: tick :: 'y' :: []))]) from rfl] at h
  exact Except.noConfusion h

/-! #### Structural lemmas about the fence extraction and the repairs -/

theorem isTicks3_false_of_head (c : Char) (X : List Char) (hc : c ≠ tick) :
    isTicks3 (c :: X) = false := by
  cases X with
  | nil => rfl
  | cons b r =>
    cases r with
    | nil => rfl
    | cons d r2 => simp [isTicks3, hc]

theorem hasTicks_false (l : List Char) (h : tick ∉ l) : hasTicks l = false := by
  induction l with
  | nil => rfl
  | cons c rest ih =>
    have hc : c ≠ tick := fun hcc => h (by rw [hcc]; exact List.mem_cons_self _ _)
    show (isTicks3 (c :: rest) || hasTicks rest) = false
    rw [isTicks3_false_of_head c rest hc, ih (fun hm => h (List.mem_cons_of_mem _ hm))]
    rfl

theorem ticksSplitPre_clean (l m : List Char) (h : tick ∉ l) :
    ticksSplitPre (l ++ tick :: tick :: tick :: m) = some (l, m) := by
  induction l with
  | nil => simp [ticksSplitPre, isTicks3]
  | cons c l2 ih =>
    have hc : c ≠ tick := fun hcc => h (by rw [hcc]; exact List.mem_cons_self _ _)
    show (if isTicks3 (c :: (l2 ++ tick :: tick :: tick :: m)) then
        some ([], (l2 ++ tick :: tick :: tick :: m).drop 2)
      else (ticksSplitPre (l2 ++ tick :: tick :: tick :: m)).map (fun p => (c :: p.1, p.2)))
      = some (c :: l2, m)
    rw [isTicks3_false_of_head c _ hc]
    rw [ih (fun hm => h (List.mem_cons_of_mem _ hm))]
    rfl

theorem hasTicks_mkFenced (x : List Char) : hasTicks (mkFenced x) = true := rfl

theorem rtrimWs_append_nl (x : List Char) (d : Char) (hd : x.getLast? = some d)
    (hdw : isReWs d = false) : rtrimWs (x ++ ['\n']) = x := by
  unfold rtrimWs
  rw [List.reverse_append]
  show (([('\n' : Char)] ++ x.reverse).dropWhile isReWs).reverse = x
  rw [List.singleton_append]
  show ((x.reverse).dropWhile isReWs).reverse = x
  have hrev : x.reverse.head? = some d := by
    rw [List.head?_reverse]
    exact hd
  cases hx : x.reverse with
  | nil => rw [hx] at hrev; exact Option.noConfusion hrev
  | cons e xr =>
    rw [hx] at hrev
    have he : e = d := by injection hrev
    rw [List.dropWhile_cons, he, hdw]
    show (d :: xr).reverse = x
    rw [← he, ← hx, List.reverse_reverse]

theorem searchFence_mkFenced (x : List Char) (hx : tick ∉ x)
    (c : Char) (x2 : List Char) (hcons : x = c :: x2) (hc : isReWs c = false)
    (d : Char) (hd : x.getLast? = some d) (hdw : isReWs d = false) :
    searchFence (mkFenced x) = some x := by
  have h1 : ticksSplitPre (mkFenced x)
      = some ([], "json".toList ++ ('\n' :: (x ++ ('\n' :: tick :: tick :: tick :: [])))) := rfl
  have h2 : "json".toList.isPrefixOf
      ("json".toList ++ ('\n' :: (x ++ ('\n' :: tick :: tick :: tick :: [])))) = true := by
    simp [ List.isPrefixOf_iff_prefix]
  have h3 : ("json".toList ++ ('\n' :: (x ++ ('\n' :: tick :: tick :: tick :: [])))).drop 4
      = '\n' :: (x ++ ('\n' :: tick :: tick :: tick :: [])) := rfl
  have h4 : List.dropWhile isReWs ('\n' :: (x ++ ('\n' :: tick :: tick :: tick :: [])))
      = x ++ ('\n' :: tick :: tick :: tick :: []) := by
    rw [List.dropWhile_cons_of_pos (by rfl)]
    rw [hcons, List.cons_append, List.dropWhile_cons_of_neg (by simp [hc])]
  have h5 : ticksSplitPre (x ++ ('\n' :: tick :: tick :: tick :: []))
      = some (x ++ ['\n'], []) := by
    have hassoc : x ++ ('\n' :: tick :: tick :: tick :: [])
        = (x ++ ['\n']) ++ tick :: tick :: tick :: [] := by
      simp
    rw [hassoc]
    refine ticksSplitPre_clean (x ++ ['\n']) [] ?_
    intro hm
    rcases List.mem_append.mp hm with hm1 | hm2
    · exact hx hm1
    · simp at hm2
      exact absurd hm2.symm (by decide)
  have h6 : rtrimWs (x ++ ['\n']) = x := rtrimWs_append_nl x d hd hdw
  simp [searchFence, h1, h2, h3, h4, h5, h6]

theorem braceSpan_self (l l2 : List Char) (hhead : l = '{' :: l2)
    (hlast : l.getLast? = some '}') : braceSpan l = some l := by
  have h1 : l.dropWhile (fun c => !(c == '{')) = l := by
    rw [hhead, List.dropWhile_cons_of_neg (by simp)]
  have h2 : (l.reverse.dropWhile (fun c => !(c == '}'))).reverse = l := by
    have hrev : l.reverse.head? = some '}' := by
      rw [List.head?_reverse]
      exact hlast
    cases hx : l.reverse with
    | nil => rw [hx] at hrev; exact Option.noConfusion hrev
    | cons e xr =>
      rw [hx] at hrev
      have he : e = '}' := by injection hrev
      rw [List.dropWhile_cons_of_neg (by simp [he]), ← hx, List.reverse_reverse]
  subst hhead
  unfold braceSpan
  simp only [h1]
  simp only [h2]

theorem dropWhile_append_eq (p : Char → Bool) (l m : List Char) :
    (l ++ m).dropWhile p
      = if (l.dropWhile p).isEmpty then m.dropWhile p else l.dropWhile p ++ m := by
  induction l with
  | nil => simp
  | cons a l2 ih =>
    by_cases hp : p a = true
    · rw [List.cons_append, List.dropWhile_cons_of_pos hp, ih, List.dropWhile_cons_of_pos hp]
    · rw [List.cons_append, List.dropWhile_cons_of_neg hp, List.dropWhile_cons_of_neg hp]
      simp

theorem lastNonWs_tail (a : Char) (A : List Char) :
    lastNonWs A = none ∨ lastNonWs A = lastNonWs (a :: A) := by
  by_cases h : (A.reverse.dropWhile isReWs).isEmpty = true
  · left
    unfold lastNonWs
    cases hx : A.reverse.dropWhile isReWs with
    | nil => rfl
    | cons e xr => rw [hx] at h; simp at h
  · right
    show (A.reverse.dropWhile isReWs).head? = ((a :: A).reverse.dropWhile isReWs).head?
    cases hx : A.reverse.dropWhile isReWs with
    | nil => rw [hx] at h; simp at h
    | cons e xr =>
      rw [List.reverse_cons, dropWhile_append_eq, hx, if_neg (by simp)]
      rfl

theorem dropWhile_isEmpty_of_allWs (l : List Char) (h : ∀ c ∈ l, isReWs c = true) :
    (l.dropWhile isReWs).isEmpty = true := by
  induction l with
  | nil => rfl
  | cons a l2 ih =>
    rw [List.dropWhile_cons_of_pos (h a (by simp))]
    exact ih (fun c hc => h c (by simp [hc]))

theorem lastNonWs_cons_of_allWs (a : Char) (A : List Char)
    (h : (A.reverse.dropWhile isReWs).isEmpty = true) (ha : isReWs a = false) :
    lastNonWs (a :: A) = some a := by
  unfold lastNonWs
  rw [List.reverse_cons, dropWhile_append_eq, if_pos h,
    List.dropWhile_cons_of_neg (by simp [ha])]
  rfl

theorem closesWs_cons (c : Char) (rest : List Char) :
    closesWs (c :: rest)
      = if (c == '}' || c == ']') = true then true
        else if isReWs c = true then closesWs rest else false := rfl

theorem stripTrailingCommas_cons (c : Char) (rest : List Char) :
    stripTrailingCommas (c :: rest)
      = if (c == ',' && closesWs rest) = true then stripTrailingCommas rest
        else c :: stripTrailingCommas rest := rfl

theorem closesWs_append_congr (A L M : List Char)
    (h : ∃ c ∈ A, isReWs c = false) :
    closesWs (A ++ L) = closesWs (A ++ M) := by
  induction A with
  | nil =>
    obtain ⟨c, hc, _⟩ := h
    exact absurd hc (by simp)
  | cons a A2 ih =>
    rw [List.cons_append, List.cons_append, closesWs_cons, closesWs_cons]
    by_cases h1 : (a == '}' || a == ']') = true
    · rw [if_pos h1, if_pos h1]
    · rw [if_neg h1, if_neg h1]
      by_cases h2 : isReWs a = true
      · rw [if_pos h2, if_pos h2]
        refine ih ?_
        obtain ⟨c, hc, hcw⟩ := h
        rcases List.mem_cons.mp hc with rfl | hc2
        · rw [h2] at hcw; exact absurd hcw (by simp)
        · exact ⟨c, hc2, hcw⟩
      · rw [if_neg h2, if_neg h2]

/-- The key lockstep fact for the trailing-comma repair: inserting a comma
right before the final closer is undone by the repair, provided the text does
not already end with a comma (modulo whitespace) there. -/
theorem stripTrailingCommas_lockstep (x : Char) (hx : (x == '}' || x == ']') = true) :
    ∀ A : List Char, lastNonWs A ≠ some ',' →
      stripTrailingCommas (A ++ [',', x]) = stripTrailingCommas (A ++ [x]) := by
  intro A
  induction A with
  | nil =>
    intro _
    have hcl : closesWs [x] = true := by
      rw [closesWs_cons, if_pos hx]
    show stripTrailingCommas [',', x] = stripTrailingCommas [x]
    rw [stripTrailingCommas_cons]
    rw [if_pos (by rw [hcl]; rfl)]
  | cons a A2 ih =>
    intro H
    by_cases ha : a = ','
    · subst ha
      have hnws : ∃ c ∈ A2, isReWs c = false := by
        by_contra hall
        push_neg at hall
        have hall2 : ∀ c ∈ A2.reverse, isReWs c = true := by
          intro c hc
          have := hall c (List.mem_reverse.mp hc)
          cases hcw : isReWs c with
          | false => exact absurd hcw this
          | true => rfl
        have hemp := dropWhile_isEmpty_of_allWs A2.reverse hall2
        exact H (lastNonWs_cons_of_allWs ',' A2 hemp (by decide))
      have hIH : lastNonWs A2 ≠ some ',' := by
        rcases lastNonWs_tail ',' A2 with h0 | h0
        · rw [h0]; simp
        · rw [h0]; exact H
      have hcong := closesWs_append_congr A2 [',', x] [x] hnws
      rw [List.cons_append, List.cons_append, stripTrailingCommas_cons,
        stripTrailingCommas_cons, hcong, ih hIH]
    · have ha2 : (a == ',') = false := by simp [ha]
      have hIH : lastNonWs A2 ≠ some ',' := by
        rcases lastNonWs_tail a A2 with h0 | h0
        · rw [h0]; simp
        · rw [h0]; exact H
      rw [List.cons_append, List.cons_append, stripTrailingCommas_cons,
        stripTrailingCommas_cons, ha2]
      simp only [Bool.false_and]
      rw [if_neg (by simp), if_neg (by simp), ih hIH]

/-- C8 (amended): the round-trip holds for every well-formed JSON object text
that does not contain a backtick (so in particular does not contain the
``` fence marker the counterexample exploits): for a text that starts with
`{`, ends with `}`, has no trailing comma before that closing brace, and is
backtick-free, parsing it fenced and with a trailing comma added yields
exactly the same result as parsing it plain. -/
theorem parser_roundtrip_amended :
    ∀ s : List Char, s.head? = some '{' → s.getLast? = some '}' → tick ∉ s →
      lastNonWs s.dropLast ≠ some ',' →
      parse_json_response (mkFenced (addComma s)) = parse_json_response s := by
  intro s h1 h2 htick h4
  have hne : s ≠ [] := fun h => by rw [h] at h1; exact Option.noConfusion h1
  have hlast : s.getLast hne = '}' := by
    have h0 := List.getLast?_eq_getLast s hne
    rw [h2] at h0
    exact (Option.some.inj h0).symm
  have hsplit : s = s.dropLast ++ ['}'] := by
    conv_lhs => rw [← List.dropLast_append_getLast hne]
    rw [hlast]
  have hAne : s.dropLast ≠ [] := by
    intro h0
    rw [h0] at hsplit
    rw [hsplit] at h1
    exact absurd (Option.some.inj h1) (by decide)
  obtain ⟨c0, A2, hA⟩ : ∃ c0 A2, s.dropLast = c0 :: A2 := by
    cases hA : s.dropLast with
    | nil => exact absurd hA hAne
    | cons c0 A2 => exact ⟨c0, A2, rfl⟩
  have hc0 : c0 = '{' := by
    have h0 : s.head? = some c0 := by rw [hsplit, hA]; rfl
    rw [h1] at h0
    exact (Option.some.inj h0).symm
  have hsc : addComma s = s.dropLast ++ [',', '}'] := rfl
  have hsc_cons : addComma s = '{' :: (A2 ++ [',', '}']) := by
    rw [hsc, hA, hc0]
    rfl
  have htick_sc : tick ∉ addComma s := by
    rw [hsc]
    intro hm
    rcases List.mem_append.mp hm with hm1 | hm2
    · exact htick (by rw [hsplit]; exact List.mem_append_left _ hm1)
    · simp only [List.mem_cons, List.mem_singleton] at hm2
      rcases hm2 with h | h | h
      · exact absurd h.symm (by decide)
      · exact absurd h.symm (by decide)
      · simp at h
  have hlast_sc : (addComma s).getLast? = some '}' := by
    rw [hsc]
    have h0 : s.dropLast ++ [',', '}'] = (s.dropLast ++ [',']) ++ ['}'] := by simp
    rw [h0, List.getLast?_concat]
  have hfence := searchFence_mkFenced (addComma s) htick_sc '{' (A2 ++ [',', '}'])
    hsc_cons (by decide) '}' hlast_sc (by decide)
  have hbrace_sc : braceSpan (addComma s) = some (addComma s) :=
    braceSpan_self _ _ hsc_cons hlast_sc
  have hs_cons : s = '{' :: (A2 ++ ['}']) := by
    conv_lhs => rw [hsplit, hA, hc0]
    rfl
  have hbrace_s : braceSpan s = some s := braceSpan_self _ _ hs_cons h2
  have hstrip : stripTrailingCommas (addComma s) = stripTrailingCommas s := by
    rw [hsc]
    conv_rhs => rw [hsplit]
    exact stripTrailingCommas_lockstep '}' (by decide) s.dropLast h4
  have hfenced_eval : parse_json_response (mkFenced (addComma s))
      = (match jloads (requoteValues (stripTrailingCommas (addComma s))) with
         | .ok v => .ok v
         | .error _ => .error .decodeError) := by
    simp [parse_json_response, hasTicks_mkFenced, hfence, hbrace_sc]
  have hplain_eval : parse_json_response s
      = (match jloads (requoteValues (stripTrailingCommas s)) with
         | .ok v => .ok v
         | .error _ => .error .decodeError) := by
    simp [parse_json_response, hasTicks_false s htick, hbrace_s]
  rw [hfenced_eval, hplain_eval, hstrip]

/-- Witness for C8 (amended): the round-trip at the concrete text
`{"a": "b"}`. -/
theorem parser_roundtrip_amended_witness :
    parse_json_response (mkFenced (addComma wfJson)) = parse_json_response wfJson :=
  parser_roundtrip_amended wfJson (by decide) (by decide) (by decide) (by decide)

end Triage
